import Mathlib

/-!
Verification development for the terminal-emulator core
(`src-tauri/src/ansi.rs`, `terminal.rs`, `search.rs`, `shell_hooks.rs`,
`pty.rs`).  The Rust code is shallowly embedded: strings are lists of
characters (the inputs of interest are ASCII, so byte offsets and char
offsets coincide), machine integers are `Nat`/`Int` with explicit
wrap-around (`% 2 ^ 16`) where Rust's `as` casts wrap, and arithmetic
that panics on overflow in a debug build is modelled as `Option`
(`none` = panic).  External library calls (the regex engine used by
regex-mode search, the system clock, UUID generation) enter as explicit
parameters.
-/

set_option maxRecDepth 4000
set_option maxHeartbeats 1600000

abbrev Str := List Char

/-- `as u16` cast: wraps modulo 2^16. -/
def u16cast (n : Nat) : Nat := n % 65536

/-- Checked u16 addition (`+` on `u16` panics on overflow in debug builds). -/
def u16add (a b : Nat) : Option Nat :=
  if a + b ≤ 65535 then some (a + b) else none

/-- Checked u16 subtraction (`-` on `u16` panics on underflow in debug builds). -/
def u16sub (a b : Nat) : Option Nat :=
  if b ≤ a then some (a - b) else none

/-- `as i16` view of a 16-bit value `n < 2^16` (two's-complement reinterpretation).
    Applied after `u16cast` it models Rust's wrapping `as i16` cast of any integer. -/
def i16ofBits (n : Nat) : Int :=
  let m := n % 65536
  if m < 32768 then (m : Int) else (m : Int) - 65536

/-- Checked i16 addition. -/
def i16add (a b : Int) : Option Int :=
  if -32768 ≤ a + b ∧ a + b ≤ 32767 then some (a + b) else none

/-- Checked i16 subtraction. -/
def i16sub (a b : Int) : Option Int :=
  if -32768 ≤ a - b ∧ a - b ≤ 32767 then some (a - b) else none

/-- `as u16` cast of an i16 value (wraps; total). -/
def u16ofI16 (x : Int) : Nat := (x % 65536).toNat

/-- Rust `str::parse` for an unsigned integer type with maximum `bound`:
    an optional leading `+`, one or more ASCII digits, and the value must fit. -/
def parseBounded (bound : Nat) (s : Str) : Option Nat :=
  let digits := match s with
    | '+' :: rest => rest
    | _ => s
  if digits = [] then none
  else if digits.all Char.isDigit then
    let v := digits.foldl (fun a c => a * 10 + (c.toNat - 48)) 0
    if v ≤ bound then some v else none
  else none

def parseU16 (s : Str) : Option Nat := parseBounded 65535 s

def parseU8 (s : Str) : Option Nat := parseBounded 255 s

/-- Rust `str::split(sep)`: `""` yields `[""]`, separators at the ends yield
    empty fields. -/
def splitOnChar (sep : Char) : Str → List Str
  | [] => [[]]
  | c :: rest =>
    if c = sep then [] :: splitOnChar sep rest
    else
      match splitOnChar sep rest with
      | [] => [[c]]
      | g :: gs => (c :: g) :: gs

/-- Rust `str::splitn(2, sep)`: the part before the first separator, and
    (when a separator occurs) the remainder. -/
def splitN2 (sep : Char) : Str → Str × Option Str
  | [] => ([], none)
  | c :: rest =>
    if c = sep then ([], some rest)
    else
      let (a, b) := splitN2 sep rest
      (c :: a, b)

/-- Value of a base64 (standard alphabet) character. -/
def b64Val (c : Char) : Option Nat :=
  if 'A' ≤ c ∧ c ≤ 'Z' then some (c.toNat - 65)
  else if 'a' ≤ c ∧ c ≤ 'z' then some (c.toNat - 97 + 26)
  else if '0' ≤ c ∧ c ≤ '9' then some (c.toNat - 48 + 52)
  else if c = '+' then some 62
  else if c = '/' then some 63
  else none

/-- `base64::engine::general_purpose::STANDARD.decode`: groups of four,
    canonical `=` padding, non-zero trailing bits rejected. -/
def decodeBase64 : Str → Option (List Nat)
  | [] => some []
  | a :: b :: c :: d :: rest =>
    match b64Val a, b64Val b with
    | some va, some vb =>
      if c = '=' then
        if d = '=' ∧ rest = [] ∧ vb % 16 = 0 then some [va * 4 + vb / 16] else none
      else
        match b64Val c with
        | some vc =>
          if d = '=' then
            if rest = [] ∧ vc % 4 = 0 then
              some [va * 4 + vb / 16, (vb % 16) * 16 + vc / 4]
            else none
          else
            match b64Val d with
            | some vd =>
              (decodeBase64 rest).map
                (fun tl => (va * 4 + vb / 16) :: ((vb % 16) * 16 + vc / 4) ::
                  ((vc % 4) * 64 + vd) :: tl)
            | none => none
        | none => none
    | _, _ => none
  | _ => none

/-! ## `ansi.rs`: data types -/

structure Color where
  r : Nat
  g : Nat
  b : Nat
  a : Nat
  deriving DecidableEq, Repr

namespace Color

def new (r g b : Nat) : Color := ⟨r, g, b, 255⟩

def black : Color := new 0 0 0
def red : Color := new 255 0 0
def green : Color := new 0 255 0
def yellow : Color := new 255 255 0
def blue : Color := new 0 0 255
def magenta : Color := new 255 0 255
def cyan : Color := new 0 255 255
def white : Color := new 255 255 255

end Color

structure CharAttributes where
  bold : Bool
  italic : Bool
  underline : Bool
  strikethrough : Bool
  reverse : Bool
  fgColor : Option Color
  bgColor : Option Color
  deriving DecidableEq, Repr

def CharAttributes.default : CharAttributes :=
  { bold := false, italic := false, underline := false, strikethrough := false,
    reverse := false, fgColor := none, bgColor := none }

structure CursorPosition where
  row : Nat
  col : Nat
  deriving DecidableEq, Repr

inductive CursorStyle where
  | block | underline | bar | blinkingBlock | blinkingUnderline | blinkingBar
  deriving DecidableEq, Repr

inductive MouseReportMode where
  | x10 | normal | button | any | sgr | urxvt
  deriving DecidableEq, Repr

structure ImageData where
  format : Str
  width : Option Nat
  height : Option Nat
  data : List Nat
  deriving DecidableEq, Repr

structure HyperlinkParams where
  id : Option Str
  url : Str
  deriving DecidableEq, Repr

inductive AnsiCommand where
  | cursorUp (n : Nat)
  | cursorDown (n : Nat)
  | cursorLeft (n : Nat)
  | cursorRight (n : Nat)
  | cursorPosition (row col : Nat)
  | cursorHome
  | cursorNextLine (n : Nat)
  | cursorPrevLine (n : Nat)
  | cursorColumn (n : Nat)
  | cursorSave
  | cursorRestore
  | setCursorStyle (s : CursorStyle)
  | showCursor
  | hideCursor
  | clearScreen
  | clearLine
  | clearToEndOfLine
  | clearToBeginningOfLine
  | clearFromCursor
  | clearToCursor
  | enterAlternateScreen
  | exitAlternateScreen
  | setGraphicsMode (params : List Nat)
  | scrollUp (n : Nat)
  | scrollDown (n : Nat)
  | setScrollRegion (top bottom : Nat)
  | printText (text : Str)
  | insertCharacters (n : Nat)
  | deleteCharacters (n : Nat)
  | insertLines (n : Nat)
  | deleteLines (n : Nat)
  | enableMouseReporting (m : MouseReportMode)
  | disableMouseReporting (m : MouseReportMode)
  | enableBracketedPaste
  | disableBracketedPaste
  | enableFocusEvents
  | disableFocusEvents
  | setWindowTitle (t : Str)
  | setIconTitle (t : Str)
  | resizeWindow (w h : Nat)
  | moveWindow (x y : Int)
  | minimizeWindow
  | maximizeWindow
  | restoreWindow
  | reportWindowSize
  | reportWindowPosition
  | setHyperlink (url text : Str)
  | displayImage (img : ImageData)
  | displaySixel (data : Str)
  | beginSynchronizedUpdate
  | endSynchronizedUpdate
  | deviceControlString (s : Str)
  | bell
  | visualBell
  | unknown (seq : Str)
  deriving Repr

inductive EscapeType where
  | none | csi | osc | dcs | pm | apc | ss2 | ss3
  deriving DecidableEq, Repr

/-- Parser state (`struct AnsiParser`).  The `capabilities` field of the Rust
    struct is configuration that none of the modelled operations read, so it
    is not represented. -/
structure AnsiParser where
  buffer : Str
  inEscape : Bool
  escapeType : EscapeType
  currentAttributes : CharAttributes
  savedCursor : Option CursorPosition
  hyperlinkStack : List HyperlinkParams
  inSynchronizedUpdate : Bool
  oscParams : List (Str × Str)
  deriving DecidableEq, Repr

def AnsiParser.new : AnsiParser :=
  { buffer := [], inEscape := false, escapeType := .none,
    currentAttributes := CharAttributes.default, savedCursor := none,
    hyperlinkStack := [], inSynchronizedUpdate := false, oscParams := [] }

/-! ## `ansi.rs`: sequence dispatch -/

/-- `AnsiParser::parse_csi_sequence`. -/
def parseCsiSequence (seq : Str) : Option AnsiCommand :=
  match seq with
  | '\x1b' :: '[' :: _ =>
    match seq.getLast? with
    | Option.none => none
    | some cc =>
      let paramsStr := (seq.drop 2).dropLast
      let params : List Nat := (splitOnChar ';' paramsStr).filterMap parseU16
      match cc with
      | 'A' => some (.cursorUp (params.getD 0 1))
      | 'B' => some (.cursorDown (params.getD 0 1))
      | 'C' => some (.cursorRight (params.getD 0 1))
      | 'D' => some (.cursorLeft (params.getD 0 1))
      | 'E' => some (.cursorNextLine (params.getD 0 1))
      | 'F' => some (.cursorPrevLine (params.getD 0 1))
      | 'G' => some (.cursorColumn (params.getD 0 1))
      | 'H' => some (.cursorPosition (params.getD 0 1) (params.getD 1 1))
      | 'f' => some (.cursorPosition (params.getD 0 1) (params.getD 1 1))
      | 's' => some .cursorSave
      | 'u' => some .cursorRestore
      | 'J' =>
        match params.getD 0 0 with
        | 0 => some .clearFromCursor
        | 1 => some .clearToCursor
        | 2 => some .clearScreen
        | 3 => some .clearScreen
        | _ => some (.unknown seq)
      | 'K' =>
        match params.getD 0 0 with
        | 0 => some .clearToEndOfLine
        | 1 => some .clearToBeginningOfLine
        | 2 => some .clearLine
        | _ => some (.unknown seq)
      | 'L' => some (.insertLines (params.getD 0 1))
      | 'M' => some (.deleteLines (params.getD 0 1))
      | 'P' => some (.deleteCharacters (params.getD 0 1))
      | '@' => some (.insertCharacters (params.getD 0 1))
      | 'S' => some (.scrollUp (params.getD 0 1))
      | 'T' => some (.scrollDown (params.getD 0 1))
      | 'r' => some (.setScrollRegion (params.getD 0 1) (params.getD 1 24))
      | 'm' =>
        let params8 : List Nat := (splitOnChar ';' paramsStr).filterMap parseU8
        some (.setGraphicsMode params8)
      | 'q' =>
        if paramsStr.head? = some ' ' then
          match params.getD 0 1 with
          | 0 => some (.setCursorStyle .blinkingBlock)
          | 1 => some (.setCursorStyle .blinkingBlock)
          | 2 => some (.setCursorStyle .block)
          | 3 => some (.setCursorStyle .blinkingUnderline)
          | 4 => some (.setCursorStyle .underline)
          | 5 => some (.setCursorStyle .blinkingBar)
          | 6 => some (.setCursorStyle .bar)
          | _ => some (.unknown seq)
        else some (.unknown seq)
      | 'h' =>
        if paramsStr = "?1000".data then some (.enableMouseReporting .normal)
        else if paramsStr = "?1002".data then some (.enableMouseReporting .button)
        else if paramsStr = "?1003".data then some (.enableMouseReporting .any)
        else if paramsStr = "?1006".data then some (.enableMouseReporting .sgr)
        else if paramsStr = "?1049".data ∨ paramsStr = "?47".data then some .enterAlternateScreen
        else if paramsStr = "?25".data then some .showCursor
        else if paramsStr = "?2004".data then some .enableBracketedPaste
        else if paramsStr = "?1004".data then some .enableFocusEvents
        else if paramsStr = "?2026".data then some .beginSynchronizedUpdate
        else some (.unknown seq)
      | 'l' =>
        if paramsStr = "?1000".data then some (.disableMouseReporting .normal)
        else if paramsStr = "?1002".data then some (.disableMouseReporting .button)
        else if paramsStr = "?1003".data then some (.disableMouseReporting .any)
        else if paramsStr = "?1006".data then some (.disableMouseReporting .sgr)
        else if paramsStr = "?1049".data ∨ paramsStr = "?47".data then some .exitAlternateScreen
        else if paramsStr = "?25".data then some .hideCursor
        else if paramsStr = "?2004".data then some .disableBracketedPaste
        else if paramsStr = "?1004".data then some .disableFocusEvents
        else if paramsStr = "?2026".data then some .endSynchronizedUpdate
        else some (.unknown seq)
      | _ => some (.unknown seq)
  | _ => some (.unknown seq)

/-- `AnsiParser::parse_osc_sequence`. -/
def parseOscSequence (seq : Str) : Option AnsiCommand :=
  match seq with
  | '\x1b' :: ']' :: content =>
    let parts := splitN2 ';' content
    match parseU16 parts.1 with
    | some 0 => some (.setWindowTitle (parts.2.getD []))
    | some 2 => some (.setWindowTitle (parts.2.getD []))
    | some 1 => some (.setIconTitle (parts.2.getD []))
    | some 8 =>
      let hp := splitN2 ';' (parts.2.getD [])
      some (.setHyperlink (hp.2.getD []) [])
    | some 1337 =>
      match parts.2 with
      | some data =>
        if "File=".data.isPrefixOf data then
          match decodeBase64 (data.drop 5) with
          | some bytes =>
            some (.displayImage
              { format := "png".data, width := none, height := none, data := bytes })
          | Option.none => some (.unknown seq)
        else some (.unknown seq)
      | Option.none => some (.unknown seq)
    | some _ => some (.unknown seq)
    | Option.none => some (.unknown seq)
  | _ => some (.unknown seq)

/-- `AnsiParser::parse_dcs_sequence`. -/
def parseDcsSequence (seq : Str) : Option AnsiCommand :=
  match seq with
  | '\x1b' :: 'P' :: content =>
    if content.head? = some 'q' ∨ content.contains '#' then
      some (.displaySixel content)
    else some (.deviceControlString content)
  | _ => some (.unknown seq)

/-- `AnsiParser::parse_escape_sequence`. -/
def parseEscapeSequence (et : EscapeType) (seq : Str) : Option AnsiCommand :=
  if seq.length < 2 then some (.unknown seq)
  else
    match et with
    | .csi => parseCsiSequence seq
    | .osc => parseOscSequence seq
    | .dcs => parseDcsSequence seq
    | _ => some (.unknown seq)

/-! ## `ansi.rs`: the resumable parse loop -/

/-- `AnsiParser::flush_buffer`: emit pending plain text as one print
    operation; a no-op while inside an escape sequence. -/
def flushBuffer (st : AnsiParser) : AnsiParser × List AnsiCommand :=
  if st.buffer ≠ [] ∧ st.inEscape = false then
    ({ st with buffer := [] }, [.printText st.buffer])
  else (st, [])

/-- `AnsiParser::reset_escape_state`. -/
def resetEscapeState (st : AnsiParser) : AnsiParser :=
  { st with buffer := [], inEscape := false, escapeType := .none }

def optToList : Option AnsiCommand → List AnsiCommand
  | some c => [c]
  | Option.none => []

/-- One character of `AnsiParser::parse`'s match, with the source's arm
    order.  The source's `'\x1b' if … chars.peek() == Some('\\')` arm is
    unreachable (the unguarded `'\x1b'` arm above it matches every escape
    byte first) and is therefore absent. -/
def processChar (st : AnsiParser) (c : Char) : AnsiParser × List AnsiCommand :=
  if c = '\x1b' then
    ({ (flushBuffer st).1 with
        inEscape := true,
        escapeType := .none,
        buffer := (flushBuffer st).1.buffer ++ [c] }, (flushBuffer st).2)
  else if st.inEscape = true ∧ st.escapeType = .none ∧ c = '[' then
    ({ st with escapeType := .csi, buffer := st.buffer ++ [c] }, [])
  else if st.inEscape = true ∧ st.escapeType = .none ∧ c = ']' then
    ({ st with escapeType := .osc, buffer := st.buffer ++ [c] }, [])
  else if st.inEscape = true ∧ st.escapeType = .none ∧ c = 'P' then
    ({ st with escapeType := .dcs, buffer := st.buffer ++ [c] }, [])
  else if st.inEscape = true ∧ st.escapeType = .none ∧ c = '^' then
    ({ st with escapeType := .pm, buffer := st.buffer ++ [c] }, [])
  else if st.inEscape = true ∧ st.escapeType = .none ∧ c = '_' then
    ({ st with escapeType := .apc, buffer := st.buffer ++ [c] }, [])
  else if st.inEscape = true ∧ st.escapeType = .none ∧ c = 'N' then
    ({ st with escapeType := .ss2, buffer := st.buffer ++ [c] }, [])
  else if st.inEscape = true ∧ st.escapeType = .none ∧ c = 'O' then
    ({ st with escapeType := .ss3, buffer := st.buffer ++ [c] }, [])
  else if c = '\x07' ∧ st.inEscape = true ∧
      (st.escapeType = .osc ∨ st.escapeType = .dcs ∨ st.escapeType = .pm ∨
        st.escapeType = .apc) then
    (resetEscapeState st, optToList (parseEscapeSequence st.escapeType st.buffer))
  else if st.inEscape = true ∧ st.escapeType = .csi ∧
      (('A' ≤ c ∧ c ≤ 'Z') ∨ ('a' ≤ c ∧ c ≤ 'z')) then
    (resetEscapeState st,
      optToList (parseEscapeSequence st.escapeType (st.buffer ++ [c])))
  else if st.inEscape = true then
    ({ st with buffer := st.buffer ++ [c] }, [])
  else if c = '\r' then
    ((flushBuffer st).1, (flushBuffer st).2 ++ [.cursorColumn 1])
  else if c = '\n' then
    ((flushBuffer st).1, (flushBuffer st).2 ++ [.cursorDown 1])
  else if c = '\x07' then
    ((flushBuffer st).1, (flushBuffer st).2 ++ [.bell])
  else if c = '\t' then
    ((flushBuffer st).1, (flushBuffer st).2 ++ [.cursorRight 8])
  else if c = '\x08' then
    ((flushBuffer st).1, (flushBuffer st).2 ++ [.cursorLeft 1])
  else
    ({ st with buffer := st.buffer ++ [c] }, [])

/-- The character loop of `AnsiParser::parse` (before the trailing-text
    emission). -/
def runParser (st : AnsiParser) : Str → AnsiParser × List AnsiCommand
  | [] => (st, [])
  | c :: rest =>
    ((runParser (processChar st c).1 rest).1,
      (processChar st c).2 ++ (runParser (processChar st c).1 rest).2)

/-- `AnsiParser::parse`: run the loop, then emit any remaining plain text. -/
def AnsiParser.parse (st : AnsiParser) (input : Str) : AnsiParser × List AnsiCommand :=
  let r := runParser st input
  if r.1.buffer ≠ [] ∧ r.1.inEscape = false then
    ({ r.1 with buffer := [] }, r.2 ++ [.printText r.1.buffer])
  else r

/-- One parameter of `AnsiParser::apply_graphics_mode`. -/
def applyGraphicsParam (a : CharAttributes) (p : Nat) : CharAttributes :=
  match p with
  | 0 => CharAttributes.default
  | 1 => { a with bold := true }
  | 3 => { a with italic := true }
  | 4 => { a with underline := true }
  | 7 => { a with reverse := true }
  | 9 => { a with strikethrough := true }
  | 22 => { a with bold := false }
  | 23 => { a with italic := false }
  | 24 => { a with underline := false }
  | 27 => { a with reverse := false }
  | 29 => { a with strikethrough := false }
  | 30 => { a with fgColor := some Color.black }
  | 31 => { a with fgColor := some Color.red }
  | 32 => { a with fgColor := some Color.green }
  | 33 => { a with fgColor := some Color.yellow }
  | 34 => { a with fgColor := some Color.blue }
  | 35 => { a with fgColor := some Color.magenta }
  | 36 => { a with fgColor := some Color.cyan }
  | 37 => { a with fgColor := some Color.white }
  | 39 => { a with fgColor := none }
  | 40 => { a with bgColor := some Color.black }
  | 41 => { a with bgColor := some Color.red }
  | 42 => { a with bgColor := some Color.green }
  | 43 => { a with bgColor := some Color.yellow }
  | 44 => { a with bgColor := some Color.blue }
  | 45 => { a with bgColor := some Color.magenta }
  | 46 => { a with bgColor := some Color.cyan }
  | 47 => { a with bgColor := some Color.white }
  | 49 => { a with bgColor := none }
  | _ => a

/-- `AnsiParser::apply_graphics_mode`, as a function of the attribute state. -/
def applyGraphicsModeAttrs (a : CharAttributes) (params : List Nat) : CharAttributes :=
  params.foldl applyGraphicsParam a

/-- `AnsiParser::apply_graphics_mode` (mutates `current_attributes`). -/
def AnsiParser.applyGraphicsMode (st : AnsiParser) (params : List Nat) : AnsiParser :=
  { st with currentAttributes := applyGraphicsModeAttrs st.currentAttributes params }

/-! ## Print-coalescing normal form of an operation list

Splitting an input chunk inside a run of plain text divides one
`printText` operation into several; `norm` merges adjacent `printText`
operations so that operation lists can be compared up to that division. -/

def normCons (c : AnsiCommand) (l : List AnsiCommand) : List AnsiCommand :=
  match c, l with
  | .printText s, .printText t :: r => .printText (s ++ t) :: r
  | _, _ => c :: l

def norm : List AnsiCommand → List AnsiCommand
  | [] => []
  | c :: rest => normCons c (norm rest)

theorem norm_nil : norm [] = [] := rfl

theorem norm_cons (c : AnsiCommand) (l : List AnsiCommand) :
    norm (c :: l) = normCons c (norm l) := rfl

theorem normCons_print_print (s t : Str) (r : List AnsiCommand) :
    normCons (.printText s) (normCons (.printText t) r) =
      normCons (.printText (s ++ t)) r := by
  cases r with
  | nil => simp [normCons]
  | cons c r' =>
    cases c <;> simp [normCons, List.append_assoc]

theorem norm_append_congr {l₁ l₂ : List AnsiCommand}
    (h : norm l₁ = norm l₂) (a : List AnsiCommand) :
    norm (a ++ l₁) = norm (a ++ l₂) := by
  induction a with
  | nil => simpa using h
  | cons c a ih => simp [norm_cons, ih]

/-! ## Resumability of `AnsiParser::parse` -/

theorem runParser_nil (st : AnsiParser) : runParser st [] = (st, []) := rfl

theorem runParser_cons (st : AnsiParser) (c : Char) (b : Str) :
    runParser st (c :: b) =
      ((runParser (processChar st c).1 b).1,
        (processChar st c).2 ++ (runParser (processChar st c).1 b).2) := rfl

theorem runParser_append (st : AnsiParser) (a b : Str) :
    runParser st (a ++ b) =
      ((runParser (runParser st a).1 b).1,
        (runParser st a).2 ++ (runParser (runParser st a).1 b).2) := by
  induction a generalizing st with
  | nil => simp [runParser_nil]
  | cons c a ih =>
    simp only [List.cons_append, runParser_cons, ih, List.append_assoc]

theorem parse_cons (st : AnsiParser) (c : Char) (b : Str) :
    AnsiParser.parse st (c :: b) =
      ((AnsiParser.parse (processChar st c).1 b).1,
        (processChar st c).2 ++ (AnsiParser.parse (processChar st c).1 b).2) := by
  simp only [AnsiParser.parse, runParser_cons]
  by_cases h : (runParser (processChar st c).1 b).1.buffer ≠ [] ∧
      (runParser (processChar st c).1 b).1.inEscape = false
  · simp [h, List.append_assoc]
  · simp [h]

theorem parse_append (st : AnsiParser) (a b : Str) :
    AnsiParser.parse st (a ++ b) =
      ((AnsiParser.parse (runParser st a).1 b).1,
        (runParser st a).2 ++ (AnsiParser.parse (runParser st a).1 b).2) := by
  simp only [AnsiParser.parse, runParser_append]
  by_cases h : (runParser (runParser st a).1 b).1.buffer ≠ [] ∧
      (runParser (runParser st a).1 b).1.inEscape = false
  · simp [h, List.append_assoc]
  · simp [h]

theorem setBuffer_self (s : AnsiParser) (h : s.buffer = []) :
    ({ s with buffer := [] } : AnsiParser) = s := by
  cases s
  simp_all

theorem flushBuffer_fst (s : AnsiParser) (hesc : s.inEscape = false) :
    (flushBuffer s).1 = { s with buffer := [] } := by
  by_cases h : s.buffer = []
  · simp [flushBuffer, h, setBuffer_self s h]
  · simp [flushBuffer, h, hesc]

theorem flushBuffer_snd (s : AnsiParser) (hesc : s.inEscape = false) :
    (flushBuffer s).2 = if s.buffer = [] then [] else [.printText s.buffer] := by
  by_cases h : s.buffer = [] <;> simp [flushBuffer, h, hesc]

theorem norm_print_print (s t : Str) (l : List AnsiCommand) :
    norm (.printText s :: .printText t :: l) = norm (.printText (s ++ t) :: l) := by
  simp [norm_cons, normCons_print_print]

theorem norm_flush_key (t u : Str) (tail : List AnsiCommand) :
    norm (.printText (t ++ u) :: tail) =
      norm (.printText t :: ((if u = [] then [] else [.printText u]) ++ tail)) := by
  by_cases hu : u = []
  · simp [hu]
  · simp only [if_neg hu, List.singleton_append]
    exact (norm_print_print t u tail).symm

/-- Splitting inside a run of plain text: parsing with extra pending text `t`
    in the buffer produces, up to print coalescing, `printText t` followed by
    the operations of parsing without it, and the same final state. -/
theorem parse_text_shift : ∀ (b : Str) (s : AnsiParser) (t : Str),
    s.inEscape = false → t ≠ [] →
    (AnsiParser.parse { s with buffer := t ++ s.buffer } b).1 =
      (AnsiParser.parse s b).1 ∧
    norm (AnsiParser.parse { s with buffer := t ++ s.buffer } b).2 =
      norm (.printText t :: (AnsiParser.parse s b).2) := by
  intro b
  induction b with
  | nil =>
    intro s t hesc ht
    obtain ⟨buf, esc, et, ca, sc, hs, isu, op⟩ := s
    simp only at hesc
    subst hesc
    by_cases hu : buf = []
    · subst hu
      constructor
      · simp [AnsiParser.parse, runParser, ht]
      · simp [AnsiParser.parse, runParser, ht]
    · constructor
      · simp [AnsiParser.parse, runParser, ht, hu]
      · simp [AnsiParser.parse, runParser, ht, hu, norm_print_print]
  | cons c b ih =>
    intro s t hesc ht
    obtain ⟨buf, esc, et, ca, sc, hs, isu, op⟩ := s
    simp only at hesc
    subst hesc
    by_cases hc1 : c = '\x1b'
    · subst hc1
      have hL : processChar ⟨t ++ buf, false, et, ca, sc, hs, isu, op⟩ '\x1b' =
          (⟨['\x1b'], true, .none, ca, sc, hs, isu, op⟩,
            [.printText (t ++ buf)]) := by
        simp [processChar, flushBuffer, ht]
      have hR : processChar ⟨buf, false, et, ca, sc, hs, isu, op⟩ '\x1b' =
          (⟨['\x1b'], true, .none, ca, sc, hs, isu, op⟩,
            if buf = [] then [] else [.printText buf]) := by
        by_cases hu : buf = [] <;> simp [processChar, flushBuffer, hu]
      rw [parse_cons, parse_cons, hL, hR]
      refine ⟨rfl, ?_⟩
      simp only [List.singleton_append]
      exact norm_flush_key t buf _
    · by_cases hc2 : c = '\r'
      case pos =>
        subst hc2
        have hL : processChar ⟨t ++ buf, false, et, ca, sc, hs, isu, op⟩ '\r' =
            (⟨[], false, et, ca, sc, hs, isu, op⟩,
              [.printText (t ++ buf)] ++ [.cursorColumn 1]) := by
          simp [processChar, flushBuffer, ht]
        have hR : processChar ⟨buf, false, et, ca, sc, hs, isu, op⟩ '\r' =
            (⟨[], false, et, ca, sc, hs, isu, op⟩,
              (if buf = [] then [] else [.printText buf]) ++ [.cursorColumn 1]) := by
          by_cases hu : buf = [] <;> simp [processChar, flushBuffer, hu]
        rw [parse_cons, parse_cons, hL, hR]
        refine ⟨rfl, ?_⟩
        simp only [List.append_assoc, List.singleton_append, List.cons_append,
          List.nil_append]
        exact norm_flush_key t buf _
      case neg =>
      by_cases hc3 : c = '\n'
      case pos =>
        subst hc3
        have hL : processChar ⟨t ++ buf, false, et, ca, sc, hs, isu, op⟩ '\n' =
            (⟨[], false, et, ca, sc, hs, isu, op⟩,
              [.printText (t ++ buf)] ++ [.cursorDown 1]) := by
          simp [processChar, flushBuffer, ht]
        have hR : processChar ⟨buf, false, et, ca, sc, hs, isu, op⟩ '\n' =
            (⟨[], false, et, ca, sc, hs, isu, op⟩,
              (if buf = [] then [] else [.printText buf]) ++ [.cursorDown 1]) := by
          by_cases hu : buf = [] <;> simp [processChar, flushBuffer, hu]
        rw [parse_cons, parse_cons, hL, hR]
        refine ⟨rfl, ?_⟩
        simp only [List.append_assoc, List.singleton_append, List.cons_append,
          List.nil_append]
        exact norm_flush_key t buf _
      case neg =>
      by_cases hc4 : c = '\x07'
      case pos =>
        subst hc4
        have hL : processChar ⟨t ++ buf, false, et, ca, sc, hs, isu, op⟩ '\x07' =
            (⟨[], false, et, ca, sc, hs, isu, op⟩,
              [.printText (t ++ buf)] ++ [.bell]) := by
          simp [processChar, flushBuffer, ht]
        have hR : processChar ⟨buf, false, et, ca, sc, hs, isu, op⟩ '\x07' =
            (⟨[], false, et, ca, sc, hs, isu, op⟩,
              (if buf = [] then [] else [.printText buf]) ++ [.bell]) := by
          by_cases hu : buf = [] <;> simp [processChar, flushBuffer, hu]
        rw [parse_cons, parse_cons, hL, hR]
        refine ⟨rfl, ?_⟩
        simp only [List.append_assoc, List.singleton_append, List.cons_append,
          List.nil_append]
        exact norm_flush_key t buf _
      case neg =>
      by_cases hc5 : c = '\t'
      case pos =>
        subst hc5
        have hL : processChar ⟨t ++ buf, false, et, ca, sc, hs, isu, op⟩ '\t' =
            (⟨[], false, et, ca, sc, hs, isu, op⟩,
              [.printText (t ++ buf)] ++ [.cursorRight 8]) := by
          simp [processChar, flushBuffer, ht]
        have hR : processChar ⟨buf, false, et, ca, sc, hs, isu, op⟩ '\t' =
            (⟨[], false, et, ca, sc, hs, isu, op⟩,
              (if buf = [] then [] else [.printText buf]) ++ [.cursorRight 8]) := by
          by_cases hu : buf = [] <;> simp [processChar, flushBuffer, hu]
        rw [parse_cons, parse_cons, hL, hR]
        refine ⟨rfl, ?_⟩
        simp only [List.append_assoc, List.singleton_append, List.cons_append,
          List.nil_append]
        exact norm_flush_key t buf _
      case neg =>
      by_cases hc6 : c = '\x08'
      case pos =>
        subst hc6
        have hL : processChar ⟨t ++ buf, false, et, ca, sc, hs, isu, op⟩ '\x08' =
            (⟨[], false, et, ca, sc, hs, isu, op⟩,
              [.printText (t ++ buf)] ++ [.cursorLeft 1]) := by
          simp [processChar, flushBuffer, ht]
        have hR : processChar ⟨buf, false, et, ca, sc, hs, isu, op⟩ '\x08' =
            (⟨[], false, et, ca, sc, hs, isu, op⟩,
              (if buf = [] then [] else [.printText buf]) ++ [.cursorLeft 1]) := by
          by_cases hu : buf = [] <;> simp [processChar, flushBuffer, hu]
        rw [parse_cons, parse_cons, hL, hR]
        refine ⟨rfl, ?_⟩
        simp only [List.append_assoc, List.singleton_append, List.cons_append,
          List.nil_append]
        exact norm_flush_key t buf _
      case neg =>
        have hL : processChar ⟨t ++ buf, false, et, ca, sc, hs, isu, op⟩ c =
            (⟨t ++ (buf ++ [c]), false, et, ca, sc, hs, isu, op⟩, []) := by
          simp [processChar, hc1, hc2, hc3, hc4, hc5, hc6, List.append_assoc]
        have hR : processChar ⟨buf, false, et, ca, sc, hs, isu, op⟩ c =
            (⟨buf ++ [c], false, et, ca, sc, hs, isu, op⟩, []) := by
          simp [processChar, hc1, hc2, hc3, hc4, hc5, hc6]
        rw [parse_cons, parse_cons, hL, hR]
        simp only [List.nil_append]
        exact ih ⟨buf ++ [c], false, et, ca, sc, hs, isu, op⟩ t rfl ht

/-- Chunked and whole-input parses agree: identical final state, and
    identical operation lists up to print coalescing. -/
theorem parse_split (st : AnsiParser) (a b : Str) :
    ((st.parse a).1.parse b).1 = (st.parse (a ++ b)).1 ∧
    norm ((st.parse a).2 ++ ((st.parse a).1.parse b).2) =
      norm ((st.parse (a ++ b)).2) := by
  rw [parse_append]
  by_cases h : (runParser st a).1.buffer ≠ [] ∧ (runParser st a).1.inEscape = false
  · have hp : st.parse a =
        ({ (runParser st a).1 with buffer := [] },
          (runParser st a).2 ++ [.printText (runParser st a).1.buffer]) := by
      simp [AnsiParser.parse, h]
    obtain ⟨hb, he⟩ := h
    have key := parse_text_shift b { (runParser st a).1 with buffer := [] }
      (runParser st a).1.buffer (by simpa using he) hb
    simp only [List.append_nil] at key
    rw [hp]
    constructor
    · exact key.1.symm
    · simp only [List.append_assoc]
      refine norm_append_congr ?_ (runParser st a).2
      simp only [List.singleton_append]
      exact key.2.symm
  · have hp : st.parse a = runParser st a := by
      simp only [AnsiParser.parse]
      rw [if_neg h]
    rw [hp]
    exact ⟨rfl, rfl⟩

/-- C1 (counterexample): splitting the plain-text input "ab" at byte offset 1
    yields the operation lists `[printText "a", printText "b"]` from the two
    calls, while a single call yields `[printText "ab"]` — the ordered lists
    differ, so the claim as stated (list equality for every input and every
    split) is false. -/
theorem c1_decoder_resumability_counterexample :
    ¬ ((AnsiParser.new.parse "a".data).2 ++
          ((AnsiParser.new.parse "a".data).1.parse "b".data).2 =
        (AnsiParser.new.parse "ab".data).2) := by
  intro h
  have hl := congrArg List.length h
  revert hl
  decide

/-- C1 (amended): for every input string and every byte-offset split of it
    into two chunks, feeding the two chunks to `parse` in two successive
    calls on the same parser yields the same final parser state as feeding
    the whole string in one call, and the same ordered operation list up to
    coalescing adjacent print-text operations (a split inside a run of plain
    text may divide one print-text operation in two; in-progress escape
    sequences are buffered across the call boundary, never corrupted or
    dropped). -/
theorem c1_decoder_resumability_amended (st : AnsiParser) (a b : Str) :
    ((st.parse a).1.parse b).1 = (st.parse (a ++ b)).1 ∧
    norm ((st.parse a).2 ++ ((st.parse a).1.parse b).2) =
      norm ((st.parse (a ++ b)).2) :=
  parse_split st a b

/-! ## `terminal.rs`: the grid model

Cursor coordinates are `u16` in the source; they are modelled as `Nat`
with u16 wrap/overflow made explicit.  Operations whose arithmetic can
panic in a debug build (`u16`/`i16` overflow or underflow) return
`Option` (`none` = panic). -/

structure TerminalChar where
  character : Char
  attributes : CharAttributes
  deriving DecidableEq, Repr

def TerminalChar.default : TerminalChar := ⟨' ', CharAttributes.default⟩

structure TerminalGrid where
  rows : List (List TerminalChar)
  cols : Nat
  cursor : CursorPosition
  savedCursor : Option CursorPosition
  deriving DecidableEq, Repr

namespace TerminalGrid

/-- `TerminalGrid::new`. -/
def new (cols rows : Nat) : TerminalGrid :=
  { rows := List.replicate rows (List.replicate cols TerminalChar.default),
    cols := cols, cursor := ⟨0, 0⟩, savedCursor := none }

/-- `Vec::resize(new_cols, default)` on one row. -/
def resizeRow (r : List TerminalChar) (newCols : Nat) : List TerminalChar :=
  r.take newCols ++ List.replicate (newCols - r.length) TerminalChar.default

/-- `TerminalGrid::resize`.  The cursor re-clamp computes
    `new_rows as u16 - 1` and `new_cols as u16 - 1` in u16 arithmetic;
    the subtraction underflows (`none`) when the low 16 bits of the new
    dimension are zero. -/
def resize (g : TerminalGrid) (newCols newRows : Nat) : Option TerminalGrid :=
  let rows1 := g.rows.map (fun r => resizeRow r newCols)
  let rows2 :=
    if newRows > rows1.length then
      rows1 ++ List.replicate (newRows - rows1.length)
        (List.replicate newCols TerminalChar.default)
    else rows1.take newRows
  match u16sub (u16cast newRows) 1, u16sub (u16cast newCols) 1 with
  | some r1, some c1 =>
    some { rows := rows2, cols := newCols,
           cursor := ⟨min g.cursor.row r1, min g.cursor.col c1⟩,
           savedCursor := g.savedCursor }
  | _, _ => none

/-- `TerminalGrid::clear_screen`. -/
def clearScreen (g : TerminalGrid) : TerminalGrid :=
  { g with
    rows := g.rows.map (fun r => r.map (fun _ => TerminalChar.default)),
    cursor := ⟨0, 0⟩ }

/-- `TerminalGrid::clear_line`. -/
def clearLine (g : TerminalGrid) : TerminalGrid :=
  if g.cursor.row < g.rows.length then
    { g with rows := g.rows.set g.cursor.row ((g.rows.getD g.cursor.row []).map (fun _ => TerminalChar.default)) }
  else g

/-- One iteration of the `scroll_up` loop: remove the top row, append a
    blank one. -/
def scrollStep (g : TerminalGrid) : TerminalGrid :=
  { g with rows := g.rows.drop 1 ++ [List.replicate g.cols TerminalChar.default] }

def scrollIter : Nat → TerminalGrid → TerminalGrid
  | 0, g => g
  | n + 1, g => scrollIter n (scrollStep g)

/-- `TerminalGrid::scroll_up`. -/
def scrollUp (g : TerminalGrid) (lines : Nat) : TerminalGrid :=
  if lines ≥ g.rows.length then clearScreen g
  else scrollIter lines g

/-- The row update performed by `write_char`: the cell at the cursor is
    overwritten with the given character and attributes. -/
def writtenRows (g : TerminalGrid) (ch : Char) (attributes : CharAttributes) :
    List (List TerminalChar) :=
  g.rows.set g.cursor.row
    ((g.rows.getD g.cursor.row []).set g.cursor.col ⟨ch, attributes⟩)

/-- `TerminalGrid::write_char`. -/
def writeChar (g : TerminalGrid) (ch : Char) (attributes : CharAttributes) :
    Option TerminalGrid :=
  if g.cursor.row ≥ g.rows.length then some g
  else if g.cursor.col < (g.rows.getD g.cursor.row []).length then
    match u16add g.cursor.col 1 with
    | some col2 =>
      if col2 ≥ g.cols then
        if g.cursor.row < g.rows.length - 1 then
          match u16add g.cursor.row 1 with
          | some row2 =>
            some { g with rows := writtenRows g ch attributes, cursor := ⟨row2, 0⟩ }
          | none => none
        else
          some (scrollUp
            { g with rows := writtenRows g ch attributes,
                     cursor := ⟨g.cursor.row, 0⟩ } 1)
      else
        some { g with rows := writtenRows g ch attributes,
                      cursor := ⟨g.cursor.row, col2⟩ }
    | none => none
  else some g

/-- `TerminalGrid::move_cursor` (arguments are `u16` at the Rust type level). -/
def moveCursor (g : TerminalGrid) (row col : Nat) : Option TerminalGrid :=
  match u16sub (u16cast g.rows.length) 1, u16sub (u16cast g.cols) 1 with
  | some r1, some c1 =>
    some { g with cursor := ⟨min row r1, min col c1⟩ }
  | _, _ => none

/-- `TerminalGrid::move_cursor_relative` (deltas are `i16`). -/
def moveCursorRelative (g : TerminalGrid) (deltaRow deltaCol : Int) :
    Option TerminalGrid :=
  match i16add (i16ofBits g.cursor.row) deltaRow,
      i16add (i16ofBits g.cursor.col) deltaCol with
  | some sr, some sc =>
    match i16sub (i16ofBits g.rows.length) 1, i16sub (i16ofBits g.cols) 1 with
    | some br, some bc =>
      some { g with cursor :=
        ⟨u16ofI16 (min (max sr 0) br), u16ofI16 (min (max sc 0) bc)⟩ }
    | _, _ => none
  | _, _ => none

/-- The grid's structural invariant together with the claimed cursor bounds. -/
def wf (g : TerminalGrid) : Prop :=
  1 ≤ g.rows.length ∧ 1 ≤ g.cols ∧ (∀ r ∈ g.rows, r.length = g.cols) ∧
  g.cursor.row < g.rows.length ∧ g.cursor.col < g.cols ∧
  g.cursor.row < 65536 ∧ g.cursor.col < 65536

end TerminalGrid

inductive GridOp where
  | writeChar (c : Char) (a : CharAttributes)
  | moveCursor (row col : Nat)
  | moveCursorRelative (dr dc : Int)
  | clearScreen
  | clearLine
  | scrollUp (n : Nat)
  | resize (cols rows : Nat)

def applyGridOp (g : TerminalGrid) : GridOp → Option TerminalGrid
  | .writeChar c a => g.writeChar c a
  | .moveCursor r c => g.moveCursor r c
  | .moveCursorRelative dr dc => g.moveCursorRelative dr dc
  | .clearScreen => some g.clearScreen
  | .clearLine => some g.clearLine
  | .scrollUp n => some (g.scrollUp n)
  | .resize c r => g.resize c r

def applyGridOps (g : TerminalGrid) : List GridOp → Option TerminalGrid
  | [] => some g
  | op :: rest =>
    match applyGridOp g op with
    | some g2 => applyGridOps g2 rest
    | none => none

theorem u16ofI16_lt (x : Int) : u16ofI16 x < 65536 := by
  simp only [u16ofI16]
  omega

/-- The i16 clamp `(… ).max(0).min(len as i16 - 1)`, read back as u16, lands
    strictly below `len` whenever the subtraction `len as i16 - 1` itself did
    not overflow and `len ≥ 1`. -/
theorem clamp_bound (L : Nat) (hL : 1 ≤ L) (s br : Int)
    (hbr : i16sub (i16ofBits L) 1 = some br) :
    u16ofI16 (min (max s 0) br) < L := by
  simp only [i16sub, i16ofBits, u16ofI16] at hbr ⊢
  by_cases hm : L % 65536 < 32768 <;> simp only [hm, if_true, if_false] at hbr
  · split at hbr
    · simp only [Option.some.injEq] at hbr
      subst hbr
      omega
    · exact absurd hbr (by simp)
  · split at hbr
    · simp only [Option.some.injEq] at hbr
      subst hbr
      omega
    · exact absurd hbr (by simp)

theorem u16sub_eq_some {a b v : Nat} : u16sub a b = some v ↔ b ≤ a ∧ v = a - b := by
  unfold u16sub
  split <;> simp_all <;> omega

theorem u16add_eq_some {a b v : Nat} :
    u16add a b = some v ↔ a + b ≤ 65535 ∧ v = a + b := by
  unfold u16add
  split <;> simp_all <;> omega

theorem i16add_eq_some {a b v : Int} :
    i16add a b = some v ↔ -32768 ≤ a + b ∧ a + b ≤ 32767 ∧ v = a + b := by
  unfold i16add
  split <;> simp_all <;> omega

namespace TerminalGrid

theorem getD_row_mem {g : TerminalGrid} (h : g.cursor.row < g.rows.length) :
    g.rows.getD g.cursor.row [] ∈ g.rows := by
  unfold List.getD
  rw [List.get?_eq_get h]
  exact List.get_mem _ _ _

theorem clearScreen_wf {g : TerminalGrid} (h : g.wf) : g.clearScreen.wf := by
  obtain ⟨hL, hc, hlen, _, _, _, _⟩ := h
  refine ⟨by simpa [clearScreen] using hL, hc, ?_, by simpa [clearScreen] using hL,
    by simpa [clearScreen] using hc, by simp [clearScreen], by simp [clearScreen]⟩
  intro r hr
  simp only [clearScreen, List.mem_map] at hr
  obtain ⟨r0, hr0, rfl⟩ := hr
  simp [clearScreen, hlen r0 hr0]

theorem clearLine_wf {g : TerminalGrid} (h : g.wf) : g.clearLine.wf := by
  obtain ⟨hL, hc, hlen, hr, hcol, hr16, hc16⟩ := h
  unfold clearLine
  rw [if_pos hr]
  refine ⟨by simpa using hL, hc, ?_, by simpa using hr, hcol, hr16, hc16⟩
  intro r hrm
  simp only at hrm
  rcases List.mem_or_eq_of_mem_set hrm with hin | rfl
  · exact hlen r hin
  · simpa using hlen _ (getD_row_mem hr)

theorem scrollStep_rows_length {g : TerminalGrid} (h : 1 ≤ g.rows.length) :
    g.scrollStep.rows.length = g.rows.length := by
  simp only [scrollStep, List.length_append, List.length_drop, List.length_singleton]
  omega

theorem scrollStep_wf {g : TerminalGrid} (h : g.wf) : g.scrollStep.wf := by
  obtain ⟨hL, hc, hlen, hr, hcol, hr16, hc16⟩ := h
  refine ⟨?_, hc, ?_, ?_, hcol, hr16, hc16⟩
  · simp [scrollStep]
  · intro r hrm
    simp only [scrollStep, List.mem_append, List.mem_singleton] at hrm
    rcases hrm with hin | rfl
    · exact hlen r (List.mem_of_mem_drop hin)
    · simp [scrollStep]
  · have := scrollStep_rows_length (g := g) hL
    simp only [scrollStep] at this ⊢
    omega

theorem scrollIter_wf : ∀ (n : Nat) {g : TerminalGrid}, g.wf → (scrollIter n g).wf
  | 0, _, h => h
  | n + 1, _, h => scrollIter_wf n (scrollStep_wf h)

theorem scrollUp_wf {g : TerminalGrid} (h : g.wf) (n : Nat) : (g.scrollUp n).wf := by
  unfold scrollUp
  split
  · exact clearScreen_wf h
  · exact scrollIter_wf n h

theorem scrollIter_rows_length : ∀ (n : Nat) {g : TerminalGrid}, g.wf →
    (scrollIter n g).rows.length = g.rows.length
  | 0, _, _ => rfl
  | n + 1, g, h => by
    have h1 := scrollIter_rows_length n (scrollStep_wf h)
    have h2 := scrollStep_rows_length h.1
    simp only [scrollIter]
    omega

theorem scrollUp_rows_length {g : TerminalGrid} (h : g.wf) (n : Nat) :
    (g.scrollUp n).rows.length = g.rows.length := by
  unfold scrollUp
  split
  · simp [clearScreen]
  · exact scrollIter_rows_length n h

theorem moveCursor_wf {g : TerminalGrid} {r c : Nat} {g2 : TerminalGrid}
    (h : g.wf) (he : g.moveCursor r c = some g2) : g2.wf := by
  obtain ⟨hL, hc, hlen, _, _, _, _⟩ := h
  cases h1 : u16sub (u16cast g.rows.length) 1 with
  | none => simp [moveCursor, h1] at he
  | some r1 =>
    cases h2 : u16sub (u16cast g.cols) 1 with
    | none => simp [moveCursor, h1, h2] at he
    | some c1 =>
      simp only [moveCursor, h1, h2, Option.some.injEq] at he
      subst he
      rw [u16sub_eq_some] at h1 h2
      unfold u16cast at h1 h2
      have hm1 : g.rows.length % 65536 ≤ g.rows.length := Nat.mod_le _ _
      have hm2 : g.cols % 65536 ≤ g.cols := Nat.mod_le _ _
      refine ⟨hL, hc, hlen, ?_, ?_, ?_, ?_⟩ <;> simp only [min_def] <;>
        split <;> omega

theorem moveCursorRelative_wf {g : TerminalGrid} {dr dc : Int} {g2 : TerminalGrid}
    (h : g.wf) (he : g.moveCursorRelative dr dc = some g2) : g2.wf := by
  obtain ⟨hL, hc, hlen, _, _, _, _⟩ := h
  cases h1 : i16add (i16ofBits g.cursor.row) dr with
  | none => simp [moveCursorRelative, h1] at he
  | some sr =>
    cases h2 : i16add (i16ofBits g.cursor.col) dc with
    | none => simp [moveCursorRelative, h1, h2] at he
    | some sc =>
      cases h3 : i16sub (i16ofBits g.rows.length) 1 with
      | none => simp [moveCursorRelative, h1, h2, h3] at he
      | some br =>
        cases h4 : i16sub (i16ofBits g.cols) 1 with
        | none => simp [moveCursorRelative, h1, h2, h3, h4] at he
        | some bc =>
          simp only [moveCursorRelative, h1, h2, h3, h4, Option.some.injEq] at he
          subst he
          exact ⟨hL, hc, hlen, clamp_bound _ hL _ _ h3, clamp_bound _ hc _ _ h4,
            u16ofI16_lt _, u16ofI16_lt _⟩

end TerminalGrid

namespace TerminalGrid

theorem writtenRows_length (g : TerminalGrid) (ch : Char) (a : CharAttributes) :
    (writtenRows g ch a).length = g.rows.length := by
  simp [writtenRows]

theorem writtenRows_mem {g : TerminalGrid} (ch : Char) (a : CharAttributes)
    (hlen : ∀ r ∈ g.rows, r.length = g.cols) (hr : g.cursor.row < g.rows.length) :
    ∀ r ∈ writtenRows g ch a, r.length = g.cols := by
  intro r hrm
  rcases List.mem_or_eq_of_mem_set hrm with hin | rfl
  · exact hlen r hin
  · simpa using hlen _ (getD_row_mem hr)

theorem writeChar_wf {g : TerminalGrid} {ch : Char} {a : CharAttributes}
    {g2 : TerminalGrid} (h : g.wf) (he : g.writeChar ch a = some g2) : g2.wf := by
  obtain ⟨hL, hc, hlen, hr, hcol, hr16, hc16⟩ := h
  unfold writeChar at he
  rw [if_neg (by omega : ¬ g.cursor.row ≥ g.rows.length)] at he
  by_cases hcl : g.cursor.col < (g.rows.getD g.cursor.row []).length
  case neg =>
    rw [if_neg hcl] at he
    simp only [Option.some.injEq] at he
    subst he
    exact ⟨hL, hc, hlen, hr, hcol, hr16, hc16⟩
  rw [if_pos hcl] at he
  cases hadd : u16add g.cursor.col 1 with
  | none => simp [hadd] at he
  | some col2 =>
    simp only [hadd] at he
    obtain ⟨hcb, rfl⟩ := u16add_eq_some.mp hadd
    by_cases hwrap : g.cursor.col + 1 ≥ g.cols
    · rw [if_pos hwrap] at he
      by_cases hlast : g.cursor.row < g.rows.length - 1
      · rw [if_pos hlast] at he
        cases hadd2 : u16add g.cursor.row 1 with
        | none => simp [hadd2] at he
        | some row2 =>
          simp only [hadd2, Option.some.injEq] at he
          subst he
          obtain ⟨hrb, rfl⟩ := u16add_eq_some.mp hadd2
          refine ⟨?_, hc, writtenRows_mem ch a hlen hr, ?_, by dsimp only; omega,
            by dsimp only; omega, by dsimp only; omega⟩
          · simpa [writtenRows_length] using hL
          · simp only [writtenRows_length]
            omega
      · rw [if_neg hlast] at he
        simp only [Option.some.injEq] at he
        subst he
        apply scrollUp_wf
        refine ⟨?_, hc, writtenRows_mem ch a hlen hr, ?_, by dsimp only; omega,
          hr16, by dsimp only; omega⟩
        · simpa [writtenRows_length] using hL
        · simpa [writtenRows_length] using hr
    · rw [if_neg hwrap] at he
      simp only [Option.some.injEq] at he
      subst he
      refine ⟨?_, hc, writtenRows_mem ch a hlen hr, ?_, by dsimp only; omega,
        hr16, by dsimp only; omega⟩
      · simpa [writtenRows_length] using hL
      · simpa [writtenRows_length] using hr

theorem resizeRow_length (r : List TerminalChar) (nc : Nat) :
    (resizeRow r nc).length = nc := by
  simp only [resizeRow, List.length_append, List.length_take, List.length_replicate]
  omega

theorem resize_eq_some {g : TerminalGrid} {nc nr : Nat} {g2 : TerminalGrid}
    (he : g.resize nc nr = some g2) :
    1 ≤ nr % 65536 ∧ 1 ≤ nc % 65536 ∧ g2.cols = nc ∧ g2.rows.length = nr ∧
    (∀ r ∈ g2.rows, r.length = nc) ∧
    g2.cursor.row = min g.cursor.row (nr % 65536 - 1) ∧
    g2.cursor.col = min g.cursor.col (nc % 65536 - 1) := by
  cases h1 : u16sub (u16cast nr) 1 with
  | none => simp [resize, h1] at he
  | some r1 =>
    cases h2 : u16sub (u16cast nc) 1 with
    | none => simp [resize, h1, h2] at he
    | some c1 =>
      simp only [resize, h1, h2, Option.some.injEq] at he
      subst he
      obtain ⟨hb1, rfl⟩ := u16sub_eq_some.mp h1
      obtain ⟨hb2, rfl⟩ := u16sub_eq_some.mp h2
      unfold u16cast at hb1 hb2 ⊢
      refine ⟨by omega, by omega, rfl, ?_, ?_, rfl, rfl⟩
      · simp only [List.length_append, List.length_take, List.length_map,
          List.length_replicate]
        split <;> simp_all <;> omega
      · intro r hrm
        split at hrm
        · simp only [List.mem_append, List.mem_map, List.mem_replicate] at hrm
          rcases hrm with ⟨r0, _, rfl⟩ | ⟨_, rfl⟩
          · exact resizeRow_length r0 nc
          · simp
        · have hsub := List.take_subset nr (g.rows.map (fun r => resizeRow r nc))
          have := hsub hrm
          simp only [List.mem_map] at this
          obtain ⟨r0, _, rfl⟩ := this
          exact resizeRow_length r0 nc

theorem resize_isSome (g : TerminalGrid) {nc nr : Nat}
    (hnr : 1 ≤ nr % 65536) (hnc : 1 ≤ nc % 65536) : (g.resize nc nr).isSome := by
  have h1 : u16sub (u16cast nr) 1 = some (nr % 65536 - 1) := by
    rw [u16sub_eq_some]
    unfold u16cast
    omega
  have h2 : u16sub (u16cast nc) 1 = some (nc % 65536 - 1) := by
    rw [u16sub_eq_some]
    unfold u16cast
    omega
  simp [resize, h1, h2]

theorem resize_none_zero_rows (g : TerminalGrid) (nc : Nat) :
    g.resize nc 0 = none := by
  cases h2 : u16sub (u16cast nc) 1 <;>
    simp [resize, h2, u16sub, u16cast]

theorem resize_none_zero_cols (g : TerminalGrid) (nr : Nat) :
    g.resize 0 nr = none := by
  cases h1 : u16sub (u16cast nr) 1 <;>
    simp [resize, h1, u16sub, u16cast]

theorem resize_wf {g : TerminalGrid} {nc nr : Nat} {g2 : TerminalGrid}
    (h : g.wf) (he : g.resize nc nr = some g2) : g2.wf := by
  obtain ⟨hb1, hb2, hcols, hrows, hmem, hcr, hcc⟩ := resize_eq_some he
  have hm1 : nr % 65536 ≤ nr := Nat.mod_le _ _
  have hm2 : nc % 65536 ≤ nc := Nat.mod_le _ _
  refine ⟨by omega, by omega, ?_, by omega, by omega, by omega, by omega⟩
  intro r hrm
  rw [hcols]
  exact hmem r hrm

end TerminalGrid

instance (g : TerminalGrid) : Decidable g.wf := by
  unfold TerminalGrid.wf
  infer_instance

theorem applyGridOp_wf {g : TerminalGrid} {op : GridOp} {g2 : TerminalGrid}
    (h : g.wf) (he : applyGridOp g op = some g2) : g2.wf := by
  cases op with
  | writeChar c a => exact TerminalGrid.writeChar_wf h he
  | moveCursor r c => exact TerminalGrid.moveCursor_wf h he
  | moveCursorRelative dr dc => exact TerminalGrid.moveCursorRelative_wf h he
  | clearScreen =>
    simp only [applyGridOp, Option.some.injEq] at he
    subst he
    exact TerminalGrid.clearScreen_wf h
  | clearLine =>
    simp only [applyGridOp, Option.some.injEq] at he
    subst he
    exact TerminalGrid.clearLine_wf h
  | scrollUp n =>
    simp only [applyGridOp, Option.some.injEq] at he
    subst he
    exact TerminalGrid.scrollUp_wf h n
  | resize c r => exact TerminalGrid.resize_wf h he

theorem applyGridOps_wf : ∀ (ops : List GridOp) {g g2 : TerminalGrid},
    g.wf → applyGridOps g ops = some g2 → g2.wf := by
  intro ops
  induction ops with
  | nil =>
    intro g g2 h he
    simp only [applyGridOps, Option.some.injEq] at he
    subst he
    exact h
  | cons op rest ih =>
    intro g g2 h he
    simp only [applyGridOps] at he
    cases hop : applyGridOp g op with
    | none => rw [hop] at he; exact absurd he (by simp)
    | some g1 =>
      rw [hop] at he
      exact ih (applyGridOp_wf h hop) he

/-- C2: for every well-formed grid and every sequence of grid operations
    (write_char, move_cursor, move_cursor_relative, clear_screen, clear_line,
    scroll_up, resize) applied to it, every grid produced (in particular
    every intermediate grid, obtained by instantiating `ops` with a prefix)
    keeps the cursor within bounds: row ∈ [0, rows) and column ∈ [0, cols).
    Operations whose u16/i16 arithmetic would panic yield `none` and are
    excluded by the `some` hypothesis. -/
theorem c2_grid_cursor_invariant (g : TerminalGrid) (ops : List GridOp)
    (g2 : TerminalGrid) (hwf : g.wf) (h : applyGridOps g ops = some g2) :
    g2.cursor.row < g2.rows.length ∧ g2.cursor.col < g2.cols := by
  have h2 := applyGridOps_wf ops hwf h
  exact ⟨h2.2.2.2.1, h2.2.2.2.2.1⟩

/-- Witness for C2 at a concrete grid and operation sequence. -/
theorem c2_grid_cursor_invariant_witness :
    (TerminalGrid.new 2 2).wf ∧
    applyGridOps (TerminalGrid.new 2 2)
        [.writeChar 'x' CharAttributes.default, .clearScreen, .moveCursor 5 7] =
      some { TerminalGrid.new 2 2 with cursor := ⟨1, 1⟩ } ∧
    (({ TerminalGrid.new 2 2 with cursor := ⟨1, 1⟩ } : TerminalGrid).cursor.row <
        ({ TerminalGrid.new 2 2 with cursor := ⟨1, 1⟩ } : TerminalGrid).rows.length ∧
      ({ TerminalGrid.new 2 2 with cursor := ⟨1, 1⟩ } : TerminalGrid).cursor.col <
        ({ TerminalGrid.new 2 2 with cursor := ⟨1, 1⟩ } : TerminalGrid).cols) :=
  ⟨by decide, by decide,
    c2_grid_cursor_invariant (TerminalGrid.new 2 2)
      [.writeChar 'x' CharAttributes.default, .clearScreen, .moveCursor 5 7]
      { TerminalGrid.new 2 2 with cursor := ⟨1, 1⟩ } (by decide) (by decide)⟩

/-- C10 (counterexample): the claim asserts the clamping subtractions never
    underflow whenever new_rows ≥ 1 and new_cols ≥ 1, but `new_rows as u16`
    wraps: resizing to 65536 rows (≥ 1) casts to 0 and the u16 subtraction
    `0 - 1` underflows (a panic, modelled as `none`). -/
theorem c10_resize_totality_counterexample :
    (TerminalGrid.new 2 2).resize 1 65536 = none ∧ 1 ≤ 65536 := by
  constructor
  · decide
  · decide

/-- C10 (amended): resize and move_cursor clamp the cursor by computing
    `rows - 1` and `cols - 1` in unsigned 16-bit arithmetic.  For every grid
    and every target size whose dimensions lie in [1, 65535] the subtractions
    do not underflow (the operation returns `some`) and the re-clamped cursor
    lies within the new bounds; for a target of zero rows or zero columns the
    subtraction underflows (`none`), so dimensions with a nonzero low 16 bits
    are an unstated precondition of the public resize operation.  The same
    holds of `move_cursor` on a grid whose dimensions lie in [1, 65535]. -/
theorem c10_resize_clamp_totality_amended :
    (∀ (g : TerminalGrid) (nc nr : Nat) (g2 : TerminalGrid),
        1 ≤ nr → nr ≤ 65535 → 1 ≤ nc → nc ≤ 65535 →
        g.resize nc nr = some g2 →
        g2.cursor.row < nr ∧ g2.cursor.col < nc ∧
          g2.rows.length = nr ∧ g2.cols = nc) ∧
    (∀ (g : TerminalGrid) (nc nr : Nat),
        1 ≤ nr → nr ≤ 65535 → 1 ≤ nc → nc ≤ 65535 → (g.resize nc nr).isSome) ∧
    (∀ (g : TerminalGrid) (nc : Nat), g.resize nc 0 = none) ∧
    (∀ (g : TerminalGrid) (nr : Nat), g.resize 0 nr = none) ∧
    (∀ (g : TerminalGrid) (r c : Nat) (g2 : TerminalGrid),
        1 ≤ g.rows.length → g.rows.length ≤ 65535 → 1 ≤ g.cols → g.cols ≤ 65535 →
        g.moveCursor r c = some g2 →
        g2.cursor.row < g.rows.length ∧ g2.cursor.col < g.cols) ∧
    (∀ (g : TerminalGrid) (r c : Nat),
        1 ≤ g.rows.length → g.rows.length ≤ 65535 → 1 ≤ g.cols → g.cols ≤ 65535 →
        (g.moveCursor r c).isSome) := by
  refine ⟨?_, ?_, TerminalGrid.resize_none_zero_rows, TerminalGrid.resize_none_zero_cols,
    ?_, ?_⟩
  · intro g nc nr g2 h1 h2 h3 h4 he
    obtain ⟨hb1, hb2, hcols, hrows, _, hcr, hcc⟩ := TerminalGrid.resize_eq_some he
    have e1 : nr % 65536 = nr := Nat.mod_eq_of_lt (by omega)
    have e2 : nc % 65536 = nc := Nat.mod_eq_of_lt (by omega)
    omega
  · intro g nc nr h1 h2 h3 h4
    refine TerminalGrid.resize_isSome g ?_ ?_
    · rw [Nat.mod_eq_of_lt (by omega)]
      exact h1
    · rw [Nat.mod_eq_of_lt (by omega)]
      exact h3
  · intro g r c g2 h1 h2 h3 h4 he
    have e1 : u16sub (u16cast g.rows.length) 1 = some (g.rows.length - 1) := by
      rw [u16sub_eq_some]
      unfold u16cast
      omega
    have e2 : u16sub (u16cast g.cols) 1 = some (g.cols - 1) := by
      rw [u16sub_eq_some]
      unfold u16cast
      omega
    simp only [TerminalGrid.moveCursor, e1, e2, Option.some.injEq] at he
    subst he
    constructor
    · dsimp only
      omega
    · dsimp only
      omega
  · intro g r c h1 h2 h3 h4
    have e1 : u16sub (u16cast g.rows.length) 1 = some (g.rows.length - 1) := by
      rw [u16sub_eq_some]
      unfold u16cast
      omega
    have e2 : u16sub (u16cast g.cols) 1 = some (g.cols - 1) := by
      rw [u16sub_eq_some]
      unfold u16cast
      omega
    simp [TerminalGrid.moveCursor, e1, e2]

/-- Witness for the amended C10 at concrete inputs. -/
theorem c10_resize_clamp_totality_witness :
    ((TerminalGrid.new 2 2).resize 3 4).isSome ∧
    (TerminalGrid.new 2 2).resize 3 0 = none ∧
    (TerminalGrid.new 2 2).resize 0 4 = none ∧
    ((TerminalGrid.new 2 2).moveCursor 5 7).isSome :=
  ⟨c10_resize_clamp_totality_amended.2.1 (TerminalGrid.new 2 2) 3 4
      (by decide) (by decide) (by decide) (by decide),
    c10_resize_clamp_totality_amended.2.2.1 (TerminalGrid.new 2 2) 3,
    c10_resize_clamp_totality_amended.2.2.2.1 (TerminalGrid.new 2 2) 4,
    c10_resize_clamp_totality_amended.2.2.2.2.2 (TerminalGrid.new 2 2) 5 7
      (by decide) (by decide) (by decide) (by decide)⟩

theorem map_default_replicate (l : List TerminalChar) :
    l.map (fun _ => TerminalChar.default) = List.replicate l.length TerminalChar.default := by
  induction l with
  | nil => rfl
  | cons x l ih => simp [ih, List.replicate_succ]

/-- Writing a full row's worth of characters starting at the cursor's column:
    the row is filled, the cursor wraps eagerly to column 0, moving down one
    row (or scrolling when already on the last row), and the row count never
    changes. -/
theorem writeChars_spec : ∀ (cs : List Char) (g : TerminalGrid) (a : CharAttributes),
    g.wf → g.cols ≤ 65535 → g.rows.length ≤ 65536 →
    g.cursor.col + cs.length = g.cols → cs ≠ [] →
    ∃ g2 w, applyGridOps g (cs.map (fun c => GridOp.writeChar c a)) = some g2 ∧
      w.length = g.cols ∧ g2.cols = g.cols ∧
      g2.rows.length = g.rows.length ∧ g2.cursor.col = 0 ∧
      (if g.cursor.row + 1 < g.rows.length then
         g2.rows = g.rows.set g.cursor.row w ∧ g2.cursor.row = g.cursor.row + 1
       else
         g2.rows = (g.rows.set g.cursor.row w).drop 1 ++
             [List.replicate g.cols TerminalChar.default] ∧
           g2.cursor.row = g.rows.length - 1) := by
  intro cs
  induction cs with
  | nil => intro g a _ _ _ _ hne; exact absurd rfl hne
  | cons c cs ih =>
    intro g a hwf hc16 hr16 hcols _
    obtain ⟨hL, hc, hlen, hr, hcol, hrb, hcb⟩ := hwf
    have hrowlen : (g.rows.getD g.cursor.row []).length = g.cols :=
      hlen _ (TerminalGrid.getD_row_mem hr)
    have hadd : u16add g.cursor.col 1 = some (g.cursor.col + 1) :=
      u16add_eq_some.mpr ⟨by omega, rfl⟩
    have h1 : ¬ g.cursor.row ≥ g.rows.length := by omega
    have h2 : g.cursor.col < (g.rows.getD g.cursor.row []).length := by
      rw [hrowlen]
      omega
    cases cs with
    | nil =>
      -- the cols-th character: eager wrap
      simp only [List.length_cons, List.length_nil] at hcols
      have hwrapc : g.cursor.col + 1 ≥ g.cols := by omega
      by_cases hlast : g.cursor.row < g.rows.length - 1
      · have hadd2 : u16add g.cursor.row 1 = some (g.cursor.row + 1) :=
          u16add_eq_some.mpr ⟨by omega, rfl⟩
        have hstep : g.writeChar c a =
            some { g with rows := g.writtenRows c a,
                          cursor := ⟨g.cursor.row + 1, 0⟩ } := by
          simp only [TerminalGrid.writeChar, h1, h2, hadd, hwrapc, hlast, hadd2,
            if_true, if_false, ite_true, ite_false]
        refine ⟨{ g with rows := g.writtenRows c a, cursor := ⟨g.cursor.row + 1, 0⟩ },
          (g.rows.getD g.cursor.row []).set g.cursor.col ⟨c, a⟩,
          ?_, ?_, rfl, ?_, rfl, ?_⟩
        · simp only [List.map_cons, List.map_nil, applyGridOps, applyGridOp, hstep]
        · rw [List.length_set]
          exact hrowlen
        · simp [TerminalGrid.writtenRows_length]
        · rw [if_pos (by omega)]
          exact ⟨rfl, rfl⟩
      · -- on the last row: scroll
        have hreq : g.cursor.row = g.rows.length - 1 := by omega
        have hstep : g.writeChar c a =
            some (TerminalGrid.scrollUp
              { g with rows := g.writtenRows c a,
                       cursor := ⟨g.cursor.row, 0⟩ } 1) := by
          simp only [TerminalGrid.writeChar, h1, h2, hadd, hwrapc, hlast,
            if_true, if_false, ite_true, ite_false]
        by_cases hone : g.rows.length = 1
        · -- scroll_up degenerates to clear_screen
          have hsc : TerminalGrid.scrollUp
              { g with rows := g.writtenRows c a,
                       cursor := ⟨g.cursor.row, 0⟩ } 1 =
              TerminalGrid.clearScreen
                { g with rows := g.writtenRows c a,
                         cursor := ⟨g.cursor.row, 0⟩ } := by
            unfold TerminalGrid.scrollUp
            rw [if_pos (by simp [TerminalGrid.writtenRows_length, hone])]
          obtain ⟨y, hy⟩ := List.length_eq_one.mp
            (by simp [TerminalGrid.writtenRows_length, hone] :
              (g.writtenRows c a).length = 1)
          have hylen : y.length = g.cols := by
            have hmy : y ∈ g.writtenRows c a := by simp [hy]
            exact TerminalGrid.writtenRows_mem c a hlen hr y hmy
          refine ⟨TerminalGrid.clearScreen
              { g with rows := g.writtenRows c a, cursor := ⟨g.cursor.row, 0⟩ },
            (g.rows.getD g.cursor.row []).set g.cursor.col ⟨c, a⟩,
            ?_, ?_, rfl, ?_, rfl, ?_⟩
          · simp only [List.map_cons, List.map_nil, applyGridOps, applyGridOp,
              hstep, hsc]
          · rw [List.length_set]
            exact hrowlen
          · simp [TerminalGrid.clearScreen, TerminalGrid.writtenRows_length]
          · rw [if_neg (by omega)]
            constructor
            · have hdrop : ((g.rows.set g.cursor.row
                  ((g.rows.getD g.cursor.row []).set g.cursor.col ⟨c, a⟩)).drop 1) = [] := by
                apply List.drop_eq_nil_of_le
                simp [hone]
              rw [hdrop]
              show (g.writtenRows c a).map _ = _
              rw [hy]
              simp only [List.map_cons, List.map_nil, map_default_replicate, hylen]
              rfl
            · simp [TerminalGrid.clearScreen, hone]
        · -- genuine scroll: top row evicted, blank row appended
          have hsc : TerminalGrid.scrollUp
              { g with rows := g.writtenRows c a,
                       cursor := ⟨g.cursor.row, 0⟩ } 1 =
              TerminalGrid.scrollStep
                { g with rows := g.writtenRows c a,
                         cursor := ⟨g.cursor.row, 0⟩ } := by
            unfold TerminalGrid.scrollUp
            rw [if_neg (by simp only [TerminalGrid.writtenRows_length]; omega)]
            rfl
          refine ⟨TerminalGrid.scrollStep
              { g with rows := g.writtenRows c a, cursor := ⟨g.cursor.row, 0⟩ },
            (g.rows.getD g.cursor.row []).set g.cursor.col ⟨c, a⟩,
            ?_, ?_, rfl, ?_, rfl, ?_⟩
          · simp only [List.map_cons, List.map_nil, applyGridOps, applyGridOp,
              hstep, hsc]
          · rw [List.length_set]
            exact hrowlen
          · simp only [TerminalGrid.scrollStep, List.length_append,
              List.length_drop, TerminalGrid.writtenRows_length,
              List.length_singleton]
            omega
          · rw [if_neg (by omega)]
            exact ⟨by simp [TerminalGrid.scrollStep, TerminalGrid.writtenRows],
              by simp [TerminalGrid.scrollStep, hreq]⟩
    | cons c2 cs2 =>
      -- not the last character of the row: plain advance, no wrap
      have hmid : ¬ (g.cursor.col + 1 ≥ g.cols) := by
        simp only [List.length_cons] at hcols
        omega
      have hstep : g.writeChar c a =
          some { g with rows := g.writtenRows c a,
                        cursor := ⟨g.cursor.row, g.cursor.col + 1⟩ } := by
        simp only [TerminalGrid.writeChar, h1, h2, hadd, hmid,
          if_true, if_false, ite_true, ite_false]
      have hwf2 : TerminalGrid.wf
          { g with rows := g.writtenRows c a,
                   cursor := ⟨g.cursor.row, g.cursor.col + 1⟩ } := by
        refine ⟨?_, hc, TerminalGrid.writtenRows_mem c a hlen hr, ?_,
          by dsimp only; omega, by dsimp only; omega, by dsimp only; omega⟩
        · simpa [TerminalGrid.writtenRows_length] using hL
        · simpa [TerminalGrid.writtenRows_length] using hr
      obtain ⟨g2, w, happly, hwlen, hcols2, hlen2, hcol0, hcases⟩ :=
        ih { g with rows := g.writtenRows c a,
                    cursor := ⟨g.cursor.row, g.cursor.col + 1⟩ } a hwf2
          (by simpa using hc16)
          (by simpa [TerminalGrid.writtenRows_length] using hr16)
          (by simp only [List.length_cons] at hcols ⊢; omega)
          (by simp)
      simp only [TerminalGrid.writtenRows, List.set_set, List.length_set] at hcases
      refine ⟨g2, w, ?_, by simpa using hwlen, by simpa using hcols2,
        by simpa [TerminalGrid.writtenRows_length] using hlen2, hcol0, ?_⟩
      · simp only [List.map_cons, applyGridOps, applyGridOp, hstep]
        exact happly
      · exact hcases

/-- C3 (counterexample): on a 2-column, 2-row grid with the cursor at
    (0,0), writing `columns` characters followed by one more leaves the
    cursor at (1,1), not at (1,0) as claimed — the wrap to (row+1, 0)
    already happens eagerly on the `columns`-th write. -/
theorem c3_grid_wrap_counterexample :
    (applyGridOps (TerminalGrid.new 2 2)
        (List.replicate 3 (GridOp.writeChar 'x' CharAttributes.default))).map
      (fun g2 => (g2.cursor.row, g2.cursor.col)) = some (1, 1) ∧
    ((1 : Nat), (1 : Nat)) ≠ ((1 : Nat), (0 : Nat)) := by
  constructor
  · decide
  · decide

/-- C3 (amended): for every well-formed grid (dimensions within u16 range,
    at least 2 columns) with the cursor at column 0 of some row, writing
    `columns` characters already moves the cursor to (row+1, 0) — eagerly,
    on the `columns`-th write; if the cursor was on the last row a scroll is
    triggered instead, in which the top row is evicted and a blank row is
    appended, and the number of rows never changes.  The one further
    character is then placed at the start of the new row, leaving the
    cursor at column 1 of that row. -/
theorem c3_grid_wrap_scroll_amended (g : TerminalGrid) (a : CharAttributes)
    (cs : List Char) (c : Char)
    (hwf : g.wf) (hc16 : g.cols ≤ 65535) (hr16 : g.rows.length ≤ 65536)
    (hcol : g.cursor.col = 0) (hlen : cs.length = g.cols) (h2c : 2 ≤ g.cols) :
    ∃ g2 g3 w,
      applyGridOps g (cs.map (fun ch => GridOp.writeChar ch a)) = some g2 ∧
      w.length = g.cols ∧
      g2.rows.length = g.rows.length ∧ g2.cursor.col = 0 ∧
      (if g.cursor.row + 1 < g.rows.length then
         g2.rows = g.rows.set g.cursor.row w ∧ g2.cursor.row = g.cursor.row + 1
       else
         g2.rows = (g.rows.set g.cursor.row w).drop 1 ++
             [List.replicate g.cols TerminalChar.default] ∧
           g2.cursor.row = g.rows.length - 1) ∧
      g2.writeChar c a = some g3 ∧
      g3.cursor.row = g2.cursor.row ∧ g3.cursor.col = 1 ∧
      g3.rows.length = g.rows.length := by
  have hne : cs ≠ [] := by
    intro h
    rw [h] at hlen
    simp at hlen
    omega
  obtain ⟨g2, w, happly, hwlen, hcols2, hlen2, hcol0, hcases⟩ :=
    writeChars_spec cs g a ⟨hwf.1, hwf.2.1, hwf.2.2.1, hwf.2.2.2.1,
      hwf.2.2.2.2.1, hwf.2.2.2.2.2.1, hwf.2.2.2.2.2.2⟩ hc16 hr16
      (by omega) hne
  have hwf2 : g2.wf := applyGridOps_wf _ hwf happly
  obtain ⟨hL2, hc2, hmem2, hr2, _, hrb2, _⟩ := hwf2
  have hrowlen2 : (g2.rows.getD g2.cursor.row []).length = g2.cols :=
    hmem2 _ (TerminalGrid.getD_row_mem hr2)
  have hb1 : ¬ g2.cursor.row ≥ g2.rows.length := by omega
  have hb2 : g2.cursor.col < (g2.rows.getD g2.cursor.row []).length := by
    rw [hrowlen2, hcols2]
    omega
  have hadd : u16add g2.cursor.col 1 = some (g2.cursor.col + 1) :=
    u16add_eq_some.mpr ⟨by rw [hcol0]; omega, rfl⟩
  have hmid : ¬ (g2.cursor.col + 1 ≥ g2.cols) := by
    rw [hcol0, hcols2]
    omega
  have hstep : g2.writeChar c a =
      some { g2 with rows := g2.writtenRows c a,
                     cursor := ⟨g2.cursor.row, g2.cursor.col + 1⟩ } := by
    simp only [TerminalGrid.writeChar, hb1, hb2, hadd, hmid,
      if_true, if_false, ite_true, ite_false]
  refine ⟨g2, _, w, happly, hwlen, hlen2, hcol0, hcases, hstep, rfl, ?_, ?_⟩
  · dsimp only
    rw [hcol0]
  · dsimp only
    rw [TerminalGrid.writtenRows_length]
    exact hlen2

/-- Witness for the amended C3 at a concrete 2-by-2 grid. -/
theorem c3_grid_wrap_scroll_amended_witness :
    ∃ g2 g3 w,
      applyGridOps (TerminalGrid.new 2 2)
          ("xy".data.map (fun ch => GridOp.writeChar ch CharAttributes.default)) =
        some g2 ∧
      w.length = (TerminalGrid.new 2 2).cols ∧
      g2.rows.length = (TerminalGrid.new 2 2).rows.length ∧ g2.cursor.col = 0 ∧
      (if (TerminalGrid.new 2 2).cursor.row + 1 < (TerminalGrid.new 2 2).rows.length then
         g2.rows = (TerminalGrid.new 2 2).rows.set (TerminalGrid.new 2 2).cursor.row w ∧
           g2.cursor.row = (TerminalGrid.new 2 2).cursor.row + 1
       else
         g2.rows = ((TerminalGrid.new 2 2).rows.set (TerminalGrid.new 2 2).cursor.row w).drop 1 ++
             [List.replicate (TerminalGrid.new 2 2).cols TerminalChar.default] ∧
           g2.cursor.row = (TerminalGrid.new 2 2).rows.length - 1) ∧
      g2.writeChar 'z' CharAttributes.default = some g3 ∧
      g3.cursor.row = g2.cursor.row ∧ g3.cursor.col = 1 ∧
      g3.rows.length = (TerminalGrid.new 2 2).rows.length :=
  c3_grid_wrap_scroll_amended (TerminalGrid.new 2 2) CharAttributes.default
    "xy".data 'z' (by decide) (by decide) (by decide) (by decide) (by decide)
    (by decide)

/-! ## `search.rs`: the scrollback search index

The regex engine is external to the repository; regex-mode search takes
the engine as explicit parameters (`regexOk` = does the pattern compile,
`regexFindIter` = the ordered (start, end) match list of `find_iter`).
The fixed ANSI-stripping pattern (escape, `[`, parameter bytes `0-9;?`,
intermediate bytes 0x20..0x2F, one final byte 0x40..0x7E) is implemented
directly: its three character classes are disjoint, so the regex is
equivalent to this deterministic maximal-munch scan. -/

structure ScrollMatch where
  lineIndex : Nat
  start : Nat
  stop : Nat
  line : Str
  lineContent : Str
  deriving DecidableEq, Repr

def isCsiParamChar (c : Char) : Bool := c.isDigit || c = ';' || c = '?'

def isCsiIntermediate (c : Char) : Bool := ' ' ≤ c && c ≤ '/'

def isCsiFinal (c : Char) : Bool := '@' ≤ c && c ≤ '~'

theorem dropWhile_len_le (p : Char → Bool) (l : List Char) :
    (l.dropWhile p).length ≤ l.length := by
  induction l with
  | nil => simp
  | cons c t ih =>
    by_cases h : p c
    · simp only [List.dropWhile, h, List.length_cons]
      omega
    · simp [List.dropWhile, h]

/-- `replace_all` of the scrollback index's ANSI matcher with `""`. -/
def stripAnsiSearch : Str → Str
  | [] => []
  | '\x1b' :: '[' :: r2 =>
    match hdw : (r2.dropWhile isCsiParamChar).dropWhile isCsiIntermediate with
    | f :: r5 =>
      if isCsiFinal f then stripAnsiSearch r5
      else '\x1b' :: stripAnsiSearch ('[' :: r2)
    | [] => '\x1b' :: stripAnsiSearch ('[' :: r2)
  | c :: rest => c :: stripAnsiSearch rest
  termination_by s => s.length
  decreasing_by
    all_goals simp_wf
    all_goals try simp only [List.length_cons]
    all_goals try omega
    have h1 := dropWhile_len_le isCsiParamChar r2
    have h2 := dropWhile_len_le isCsiIntermediate (r2.dropWhile isCsiParamChar)
    rw [hdw] at h2
    simp only [List.length_cons] at h2
    omega

/-- `str::replace("\r\n", "\n")` (leftmost, non-overlapping). -/
def replaceCrlf : Str → Str
  | '\r' :: '\n' :: rest => '\n' :: replaceCrlf rest
  | c :: rest => c :: replaceCrlf rest
  | [] => []

/-- `str::replace('\r', "\n")`. -/
def replaceCr : Str → Str :=
  List.map (fun c => if c = '\r' then '\n' else c)

structure ScrollbackIndex where
  lines : List Str
  buf : Str
  maxLines : Nat
  deriving DecidableEq, Repr

/-- `ScrollbackIndex::new` (the compiled ANSI regex is a constant and is
    not part of the state). -/
def ScrollbackIndex.new (maxLines : Nat) : ScrollbackIndex :=
  { lines := [], buf := [], maxLines := maxLines }

/-- `ScrollbackIndex::push_line`. -/
def ScrollbackIndex.pushLine (idx : ScrollbackIndex) : ScrollbackIndex :=
  if (idx.lines ++ [idx.buf]).length > idx.maxLines then
    { lines := (idx.lines ++ [idx.buf]).drop
        ((idx.lines ++ [idx.buf]).length - idx.maxLines),
      buf := [], maxLines := idx.maxLines }
  else { lines := idx.lines ++ [idx.buf], buf := [], maxLines := idx.maxLines }

/-- `ScrollbackIndex::append`. -/
def ScrollbackIndex.append (idx : ScrollbackIndex) (data : Str) : ScrollbackIndex :=
  (replaceCr (replaceCrlf (stripAnsiSearch data))).foldl
    (fun st ch =>
      if ch = '\n' then st.pushLine else { st with buf := st.buf ++ [ch] })
    idx

/-- `ScrollbackIndex::finalize_line_if_any`. -/
def ScrollbackIndex.finalizeLineIfAny (idx : ScrollbackIndex) : ScrollbackIndex :=
  if idx.buf ≠ [] then idx.pushLine else idx

/-- Byte index of the first occurrence of `needle` in `hay`
    (`str::find(&needle)`; the strings of interest are ASCII, so byte and
    character indices coincide). -/
def findSub (hay needle : Str) : Option Nat :=
  match hay with
  | [] => if needle = [] then some 0 else none
  | _ :: t => if needle.isPrefixOf hay then some 0 else (findSub t needle).map (· + 1)

theorem findSub_bound : ∀ (hay needle : Str) (p : Nat), needle ≠ [] →
    findSub hay needle = some p → p + needle.length ≤ hay.length := by
  intro hay
  induction hay with
  | nil =>
    intro needle p hne h
    rw [show findSub [] needle = if needle = [] then some 0 else none from rfl,
      if_neg hne] at h
    exact Option.noConfusion h
  | cons c t ih =>
    intro needle p hne h
    simp only [findSub] at h
    split at h
    · simp only [Option.some.injEq] at h
      subst h
      rename_i hpre
      have := List.IsPrefix.length_le (List.isPrefixOf_iff_prefix.mp hpre)
      simpa using this
    · cases hf : findSub t needle with
      | none => rw [hf] at h; simp at h
      | some q =>
        rw [hf] at h
        simp at h
        subst h
        have := ih needle q hne hf
        simp only [List.length_cons]
        omega

/-- Rust `to_lowercase` restricted to the ASCII fragment exercised here
    (`Char.toLower` lowers exactly ASCII uppercase letters). -/
def toLowerStr (s : Str) : Str := s.map Char.toLower

/-- The inner `while` loop of the plain (non-regex) search branch: repeated
    substring scanning with `idx = end.max(idx + 1)` advancement and an
    early return once `limit` matches are collected (the `Bool` result is
    the early-return flag). -/
def scanLine (needle hay line : Str) (lineIdx limit : Nat)
    (acc : List ScrollMatch) (i : Nat) : List ScrollMatch × Bool :=
  if needle = [] then (acc, false)
  else
    match hfind : findSub (hay.drop i) needle with
    | none => (acc, false)
    | some pos =>
      if (acc ++ [(⟨lineIdx, i + pos, i + pos + needle.length, line, line⟩ :
            ScrollMatch)]).length ≥ limit then
        (acc ++ [(⟨lineIdx, i + pos, i + pos + needle.length, line, line⟩ :
          ScrollMatch)], true)
      else
        scanLine needle hay line lineIdx limit
          (acc ++ [(⟨lineIdx, i + pos, i + pos + needle.length, line, line⟩ :
            ScrollMatch)])
          (max (i + pos + needle.length) (i + 1))
  termination_by hay.length + 1 - i
  decreasing_by
    simp_wf
    rename_i hne _
    have hb := findSub_bound (hay.drop i) needle pos hne hfind
    have hd : (hay.drop i).length = hay.length - i := List.length_drop i hay
    have hnl : 1 ≤ needle.length := by
      cases needle with
      | nil => exact absurd rfl hne
      | cons _ _ => simp
    omega

/-- The per-line loop of the plain search branch. -/
def searchLines (needle : Str) (caseSensitive : Bool) (limit : Nat) :
    List (Nat × Str) → List ScrollMatch → List ScrollMatch
  | [], acc => acc
  | (i, line) :: rest, acc =>
    match scanLine needle (if caseSensitive then line else toLowerStr line)
        line i limit acc 0 with
    | (acc2, true) => acc2
    | (acc2, false) => searchLines needle caseSensitive limit rest acc2

/-- The per-match loop of the regex branch (`for m in re.find_iter(&hay)`);
    the source's `last_index` variable is written but never read. -/
def regexLineLoop (ms : List (Nat × Nat)) (lineIdx : Nat) (line : Str)
    (limit : Nat) (acc : List ScrollMatch) : List ScrollMatch × Bool :=
  match ms with
  | [] => (acc, false)
  | (s, e) :: rest =>
    if (acc ++ [(⟨lineIdx, s, e, line, line⟩ : ScrollMatch)]).length ≥ limit then
      (acc ++ [(⟨lineIdx, s, e, line, line⟩ : ScrollMatch)], true)
    else
      regexLineLoop rest lineIdx line limit
        (acc ++ [(⟨lineIdx, s, e, line, line⟩ : ScrollMatch)])

/-- The per-line loop of the regex branch. -/
def regexSearchLines (pat : Str)
    (regexFindIter : Str → Str → List (Nat × Nat)) (caseSensitive : Bool)
    (limit : Nat) : List (Nat × Str) → List ScrollMatch → List ScrollMatch
  | [], acc => acc
  | (i, line) :: rest, acc =>
    match regexLineLoop
        (regexFindIter pat (if caseSensitive then line else toLowerStr line))
        i line limit acc with
    | (acc2, true) => acc2
    | (acc2, false) => regexSearchLines pat regexFindIter caseSensitive limit rest acc2

/-- `ScrollbackIndex::search`.  In the regex branch the pattern used for
    every line is `(?i)query` when the search is case-insensitive and that
    pattern compiles (the in-loop recompilation always produces the same
    regex), and `query` otherwise. -/
def ScrollbackIndex.search (idx : ScrollbackIndex) (query : Str)
    (caseSensitive useRegex : Bool) (limit : Nat)
    (regexOk : Str → Bool) (regexFindIter : Str → Str → List (Nat × Nat)) :
    List ScrollMatch :=
  if query = [] then []
  else if useRegex then
    if regexOk query then
      regexSearchLines
        (if ¬ caseSensitive ∧ regexOk ("(?i)".data ++ query) = true then
          "(?i)".data ++ query
        else query)
        regexFindIter caseSensitive limit idx.lines.enum []
    else []
  else
    searchLines (if caseSensitive then query else toLowerStr query)
      caseSensitive limit idx.lines.enum []

/-! ## Association-list model of `HashMap<String, _>` session stores -/

def alLookup {α : Type} (k : String) : List (String × α) → Option α
  | [] => none
  | (k2, v) :: rest => if k2 = k then some v else alLookup k rest

def alInsert {α : Type} (k : String) (v : α) (l : List (String × α)) :
    List (String × α) :=
  (k, v) :: l.filter (fun p => p.1 != k)

def alErase {α : Type} (k : String) (l : List (String × α)) : List (String × α) :=
  l.filter (fun p => p.1 != k)

theorem alLookup_insert {α : Type} (k : String) (v : α) (l : List (String × α)) :
    alLookup k (alInsert k v l) = some v := by
  simp [alLookup, alInsert]

theorem alLookup_erase {α : Type} (k : String) (l : List (String × α)) :
    alLookup k (alErase k l) = none := by
  induction l with
  | nil => rfl
  | cons p rest ih =>
    by_cases h : p.1 = k
    · simpa [alErase, h] using ih
    · simpa [alErase, alLookup, h] using ih

/-- `SearchIndexManager` (`search.rs`). -/
structure SearchIndexManager where
  sessions : List (String × ScrollbackIndex)
  maxLines : Nat

def SearchIndexManager.new : SearchIndexManager := ⟨[], 5000⟩

def SearchIndexManager.createSession (m : SearchIndexManager)
    (sessionId : String) : SearchIndexManager :=
  { m with sessions :=
      alInsert sessionId (ScrollbackIndex.new m.maxLines) m.sessions }

def SearchIndexManager.removeSession (m : SearchIndexManager)
    (sessionId : String) : SearchIndexManager :=
  { m with sessions := alErase sessionId m.sessions }

/-! ## Scrollback eviction (C7) -/

/-- The last `n` elements of a list. -/
def lastN {α : Type} (n : Nat) (l : List α) : List α := l.drop (l.length - n)

theorem lastN_length_le {α : Type} (n : Nat) (l : List α) :
    (lastN n l).length ≤ n := by
  simp only [lastN, List.length_drop]
  omega

theorem pushLine_eq (idx : ScrollbackIndex) :
    idx.pushLine =
      ⟨lastN idx.maxLines (idx.lines ++ [idx.buf]), [], idx.maxLines⟩ := by
  unfold ScrollbackIndex.pushLine
  by_cases h : (idx.lines ++ [idx.buf]).length > idx.maxLines
  · rw [if_pos h]
    rfl
  · rw [if_neg h]
    simp only [lastN, Nat.sub_eq_zero_of_le (by omega :
      (idx.lines ++ [idx.buf]).length ≤ idx.maxLines), List.drop_zero]

theorem lastN_lastN_append {α : Type} (n : Nat) (a m : List α) :
    lastN n (lastN n a ++ m) = lastN n (a ++ m) := by
  unfold lastN
  by_cases hna : a.length ≤ n
  · rw [Nat.sub_eq_zero_of_le hna, List.drop_zero]
  · have hla : (a.drop (a.length - n)).length = n := by
      simp only [List.length_drop]
      omega
    by_cases hm : n ≤ m.length
    · rw [show (a.drop (a.length - n) ++ m).length - n =
          (a.drop (a.length - n)).length + (m.length - n) by
            simp only [List.length_append, hla]; omega,
        List.drop_append, show (a ++ m).length - n = a.length + (m.length - n) by
          simp only [List.length_append]; omega,
        List.drop_append]
    · rw [show (a.drop (a.length - n) ++ m).length - n = m.length by
          simp only [List.length_append, hla]; omega]
      rw [List.drop_append_of_le_length (by rw [hla]; omega)]
      rw [show (a ++ m).length - n = a.length - (n - m.length) by
          simp only [List.length_append]; omega]
      rw [List.drop_append_of_le_length (by omega)]
      rw [List.drop_drop]
      congr 2
      omega

theorem stripAnsi_no_esc : ∀ (s : Str), (∀ c ∈ s, c ≠ '\x1b') →
    stripAnsiSearch s = s := by
  intro s
  induction s with
  | nil =>
    intro _
    rw [stripAnsiSearch.eq_def]
  | cons c rest ih =>
    intro h
    have hc : c ≠ '\x1b' := h c (by simp)
    have hr : stripAnsiSearch rest = rest := ih (fun x hx => h x (by simp [hx]))
    rw [stripAnsiSearch.eq_def]
    split
    · rename_i heq
      exact absurd heq (by simp)
    · rename_i r2 heq
      injection heq with h1 _
      exact absurd h1 hc
    · rename_i x c2 rest2 hno heq
      injection heq with h1 h2
      subst h1
      subst h2
      rw [hr]

theorem replaceCrlf_no_cr : ∀ (s : Str), (∀ c ∈ s, c ≠ '\r') →
    replaceCrlf s = s := by
  intro s
  induction s with
  | nil => intro _; rfl
  | cons c rest ih =>
    intro h
    have hc : c ≠ '\r' := h c (by simp)
    have hr : replaceCrlf rest = rest := ih (fun x hx => h x (by simp [hx]))
    rw [replaceCrlf.eq_def]
    split
    · rename_i heq
      injection heq with h1 _
      exact absurd h1 hc
    · rename_i x c2 rest2 hno heq
      injection heq with h1 h2
      subst h1
      subst h2
      rw [hr]
    · rename_i heq
      exact absurd heq (by simp)

theorem replaceCr_no_cr (s : Str) (h : ∀ c ∈ s, c ≠ '\r') : replaceCr s = s := by
  unfold replaceCr
  induction s with
  | nil => rfl
  | cons c rest ih =>
    have hc : c ≠ '\r' := h c (by simp)
    have hr := ih (fun x hx => h x (by simp [hx]))
    simp only [List.map_cons, if_neg hc, hr]

theorem append_single (idx : ScrollbackIndex) (c : Char) (hb : idx.buf = [])
    (h1 : c ≠ '\x1b') (h2 : c ≠ '\r') (h3 : c ≠ '\n') :
    idx.append [c, '\n'] =
      ⟨lastN idx.maxLines (idx.lines ++ [[c]]), [], idx.maxLines⟩ := by
  have hvalid : ∀ x ∈ ([c, '\n'] : Str), x ≠ '\x1b' := by
    intro x hx
    rcases List.mem_pair.mp hx with rfl | rfl
    · exact h1
    · decide
  have hcr : ∀ x ∈ ([c, '\n'] : Str), x ≠ '\r' := by
    intro x hx
    rcases List.mem_pair.mp hx with rfl | rfl
    · exact h2
    · decide
  rw [show idx.append [c, '\n'] =
      ScrollbackIndex.pushLine { idx with buf := idx.buf ++ [c] } from by
    unfold ScrollbackIndex.append
    rw [stripAnsi_no_esc _ hvalid, replaceCrlf_no_cr _ hcr, replaceCr_no_cr _ hcr]
    simp [h3]]
  rw [pushLine_eq]
  simp [hb]

def appendLines (idx : ScrollbackIndex) (cs : List Char) : ScrollbackIndex :=
  cs.foldl (fun st c => st.append [c, '\n']) idx

theorem appendLines_spec : ∀ (cs : List Char) (idx : ScrollbackIndex),
    idx.buf = [] → idx.lines.length ≤ idx.maxLines →
    (∀ c ∈ cs, c ≠ '\x1b' ∧ c ≠ '\r' ∧ c ≠ '\n') →
    appendLines idx cs =
      ⟨lastN idx.maxLines (idx.lines ++ cs.map (fun c => [c])), [],
        idx.maxLines⟩ := by
  intro cs
  induction cs with
  | nil =>
    intro idx hb hlin _
    obtain ⟨lines, buf, maxL⟩ := idx
    simp only at hb hlin
    subst hb
    simp only [appendLines, List.foldl_nil, List.map_nil, List.append_nil, lastN,
      Nat.sub_eq_zero_of_le hlin, List.drop_zero]
  | cons c cs ih =>
    intro idx hb hlin hval
    obtain ⟨hc1, hc2, hc3⟩ := hval c (by simp)
    have hrest : ∀ x ∈ cs, x ≠ '\x1b' ∧ x ≠ '\r' ∧ x ≠ '\n' :=
      fun x hx => hval x (by simp [hx])
    have hstep := append_single idx c hb hc1 hc2 hc3
    show appendLines (idx.append [c, '\n']) cs = _
    rw [hstep, ih _ rfl (lastN_length_le _ _) hrest]
    simp only [List.map_cons]
    rw [lastN_lastN_append]
    simp [List.append_assoc]

/-- C7: appending `max_lines + k` newline-terminated single-character lines
    to a fresh scrollback index leaves exactly the last `max_lines` lines
    stored in order (the oldest `k` evicted first), and an index created by
    the manager has `max_lines = 5000`. -/
theorem c7_scrollback_eviction (maxL k : Nat) (sid : String) (cs : List Char)
    (hlen : cs.length = maxL + k)
    (hval : ∀ c ∈ cs, c ≠ '\x1b' ∧ c ≠ '\r' ∧ c ≠ '\n') :
    (appendLines (ScrollbackIndex.new maxL) cs).lines =
      (cs.drop k).map (fun c => [c]) ∧
    (appendLines (ScrollbackIndex.new maxL) cs).lines.length = maxL ∧
    SearchIndexManager.new.maxLines = 5000 ∧
    alLookup sid (SearchIndexManager.new.createSession sid).sessions =
      some (ScrollbackIndex.new 5000) := by
  have hmain := appendLines_spec cs (ScrollbackIndex.new maxL) rfl
    (by simp [ScrollbackIndex.new]) hval
  rw [hmain]
  refine ⟨?_, ?_, rfl, ?_⟩
  · show lastN maxL (([] : List Str) ++ cs.map (fun c => [c])) = _
    unfold lastN
    rw [List.nil_append, List.length_map, hlen,
      show maxL + k - maxL = k by omega]
    exact (List.map_drop _ cs k).symm
  · show (lastN maxL (([] : List Str) ++ cs.map (fun c => [c]))).length = maxL
    simp only [lastN, List.nil_append, List.length_drop, List.length_map, hlen]
    omega
  · exact alLookup_insert sid _ _

/-- Witness for C7 with max_lines = 2, k = 1 and lines a, b, c. -/
theorem c7_scrollback_eviction_witness :
    (appendLines (ScrollbackIndex.new 2) "abc".data).lines =
      ("abc".data.drop 1).map (fun c => [c]) ∧
    (appendLines (ScrollbackIndex.new 2) "abc".data).lines.length = 2 ∧
    SearchIndexManager.new.maxLines = 5000 ∧
    alLookup "s" (SearchIndexManager.new.createSession "s").sessions =
      some (ScrollbackIndex.new 5000) :=
  c7_scrollback_eviction 2 1 "s" "abc".data (by decide) (by decide)

theorem scanLine_le (needle hay line : Str) (lineIdx limit : Nat) :
    ∀ (acc : List ScrollMatch) (i : Nat), acc.length < limit →
    (scanLine needle hay line lineIdx limit acc i).1.length ≤ limit ∧
    ((scanLine needle hay line lineIdx limit acc i).2 = false →
      (scanLine needle hay line lineIdx limit acc i).1.length < limit) := by
  intro acc i
  induction acc, i using scanLine.induct needle hay line lineIdx limit with
  | case1 acc i hne =>
    intro hlt
    rw [scanLine.eq_def, if_pos hne]
    exact ⟨Nat.le_of_lt hlt, fun _ => hlt⟩
  | case2 acc i hne hf =>
    intro hlt
    rw [scanLine.eq_def, if_neg hne]
    split
    · exact ⟨Nat.le_of_lt hlt, fun _ => hlt⟩
    · rename_i pos2 heq
      rw [hf] at heq
      simp at heq
  | case3 acc i hne pos hf hge =>
    intro hlt
    rw [scanLine.eq_def, if_neg hne]
    split
    · rename_i heq
      rw [hf] at heq
      simp at heq
    · rename_i pos2 heq
      rw [hf] at heq
      injection heq with hp
      subst hp
      rw [if_pos hge]
      refine ⟨?_, fun h => by cases h⟩
      simp only [List.length_append, List.length_singleton] at hge ⊢
      omega
  | case4 acc i hne pos hf hge ih =>
    intro hlt
    rw [scanLine.eq_def, if_neg hne]
    split
    · rename_i heq
      rw [hf] at heq
      simp at heq
    · rename_i pos2 heq
      rw [hf] at heq
      injection heq with hp
      subst hp
      rw [if_neg hge]
      exact ih (by omega)

theorem searchLines_le (needle : Str) (caseSensitive : Bool) (limit : Nat) :
    ∀ (pairs : List (Nat × Str)) (acc : List ScrollMatch), acc.length < limit →
    (searchLines needle caseSensitive limit pairs acc).length ≤ limit := by
  intro pairs
  induction pairs with
  | nil => intro acc h; simpa [searchLines] using Nat.le_of_lt h
  | cons p rest ih =>
    intro acc h
    obtain ⟨i, line⟩ := p
    have hb := scanLine_le needle
      (if caseSensitive then line else toLowerStr line) line i limit acc 0 h
    unfold searchLines
    cases hres : scanLine needle
        (if caseSensitive then line else toLowerStr line) line i limit acc 0 with
    | mk acc2 stopped =>
      rw [hres] at hb
      cases stopped with
      | true => simpa using hb.1
      | false =>
        simp only
        exact ih acc2 (hb.2 rfl)

theorem regexLineLoop_le (lineIdx : Nat) (line : Str) (limit : Nat) :
    ∀ (ms : List (Nat × Nat)) (acc : List ScrollMatch), acc.length < limit →
    (regexLineLoop ms lineIdx line limit acc).1.length ≤ limit ∧
    ((regexLineLoop ms lineIdx line limit acc).2 = false →
      (regexLineLoop ms lineIdx line limit acc).1.length < limit) := by
  intro ms
  induction ms with
  | nil => intro acc h; exact ⟨by simpa [regexLineLoop] using Nat.le_of_lt h,
      fun _ => by simpa [regexLineLoop] using h⟩
  | cons m rest ih =>
    intro acc h
    obtain ⟨s, e⟩ := m
    unfold regexLineLoop
    by_cases hge : (acc ++ [(⟨lineIdx, s, e, line, line⟩ : ScrollMatch)]).length ≥ limit
    · rw [if_pos hge]
      refine ⟨?_, fun hcon => by cases hcon⟩
      simp only [List.length_append, List.length_singleton] at hge ⊢
      omega
    · rw [if_neg hge]
      exact ih _ (by simpa using hge)

theorem regexSearchLines_le (pat : Str)
    (regexFindIter : Str → Str → List (Nat × Nat)) (caseSensitive : Bool)
    (limit : Nat) :
    ∀ (pairs : List (Nat × Str)) (acc : List ScrollMatch), acc.length < limit →
    (regexSearchLines pat regexFindIter caseSensitive limit pairs acc).length ≤
      limit := by
  intro pairs
  induction pairs with
  | nil => intro acc h; simpa [regexSearchLines] using Nat.le_of_lt h
  | cons p rest ih =>
    intro acc h
    obtain ⟨i, line⟩ := p
    have hb := regexLineLoop_le i line limit
      (regexFindIter pat (if caseSensitive then line else toLowerStr line)) acc h
    unfold regexSearchLines
    cases hres : regexLineLoop
        (regexFindIter pat (if caseSensitive then line else toLowerStr line))
        i line limit acc with
    | mk acc2 stopped =>
      rw [hres] at hb
      cases stopped with
      | true => simpa using hb.1
      | false =>
        simp only
        exact ih acc2 (hb.2 rfl)

theorem scanLine_notfound (needle hay line : Str) (lineIdx limit : Nat)
    (acc : List ScrollMatch) (i : Nat) (hne : needle ≠ [])
    (hf : findSub (hay.drop i) needle = none) :
    scanLine needle hay line lineIdx limit acc i = (acc, false) := by
  rw [scanLine.eq_def, if_neg hne]
  split
  · rfl
  · rename_i pos2 heq
    rw [hf] at heq
    simp at heq

theorem scanLine_found (needle hay line : Str) (lineIdx limit : Nat)
    (acc : List ScrollMatch) (i pos : Nat) (hne : needle ≠ [])
    (hf : findSub (hay.drop i) needle = some pos) :
    scanLine needle hay line lineIdx limit acc i =
      if (acc ++ [(⟨lineIdx, i + pos, i + pos + needle.length, line, line⟩ :
            ScrollMatch)]).length ≥ limit then
        (acc ++ [(⟨lineIdx, i + pos, i + pos + needle.length, line, line⟩ :
          ScrollMatch)], true)
      else
        scanLine needle hay line lineIdx limit
          (acc ++ [(⟨lineIdx, i + pos, i + pos + needle.length, line, line⟩ :
            ScrollMatch)])
          (max (i + pos + needle.length) (i + 1)) := by
  rw [scanLine.eq_def, if_neg hne]
  split
  · rename_i heq
    rw [hf] at heq
    simp at heq
  · rename_i pos2 heq
    rw [hf] at heq
    injection heq with hp
    subst hp
    rfl

/-- C8 (counterexample): with `limit = 0` the `results.len() >= limit` check
    only fires after a match has already been pushed, so the plain scan
    returns one match — more than `limit`. -/
theorem c8_search_limit_counterexample :
    (((ScrollbackIndex.new 5000).append "a\n".data).search "a".data true false 0
        (fun _ => false) (fun _ _ => [])).length = 1 ∧ ¬ ((1 : Nat) ≤ 0) := by
  refine ⟨?_, by decide⟩
  have hidx : (ScrollbackIndex.new 5000).append "a\n".data =
      { lines := ["a".data], buf := [], maxLines := 5000 } := by
    unfold ScrollbackIndex.append
    rw [stripAnsi_no_esc "a\n".data (by decide)]
    rfl
  rw [hidx]
  rw [show (({ lines := ["a".data], buf := [], maxLines := 5000 } :
        ScrollbackIndex).search "a".data true false 0 (fun _ => false)
        (fun _ _ => []))
      = searchLines "a".data true 0 [(0, "a".data)] [] from rfl]
  rw [searchLines]
  show (match scanLine "a".data "a".data "a".data 0 0 [] 0 with
      | (acc2, true) => acc2
      | (acc2, false) => searchLines "a".data true 0 [] acc2).length = 1
  rw [scanLine_found "a".data "a".data "a".data 0 0 [] 0 0 (by decide) (by decide)]
  rfl

/-- C8 (amended): for every set of stored lines, every query, every
    case-sensitivity and regex flag, every regex engine behaviour, and every
    limit value of at least 1, search returns at most `limit` matches (both
    the plain substring scan and the regex scan stop once `limit` matches
    have been collected; with `limit = 0` a single match can still be
    returned because the stop check runs only after a push). -/
theorem c8_search_limit_amended (idx : ScrollbackIndex) (query : Str)
    (caseSensitive useRegex : Bool) (limit : Nat)
    (regexOk : Str → Bool) (regexFindIter : Str → Str → List (Nat × Nat))
    (hl : 1 ≤ limit) :
    (idx.search query caseSensitive useRegex limit regexOk regexFindIter).length ≤
      limit := by
  unfold ScrollbackIndex.search
  by_cases hq : query = []
  · simp [hq]
  rw [if_neg hq]
  by_cases hrx : useRegex
  · rw [if_pos hrx]
    by_cases hok : regexOk query
    · rw [if_pos hok]
      exact regexSearchLines_le _ _ _ _ _ [] (by simpa using hl)
    · rw [if_neg hok]
      simp
  · rw [if_neg hrx]
    exact searchLines_le _ _ _ _ [] (by simpa using hl)

/-- Witness for the amended C8 at a concrete index and limit 1. -/
theorem c8_search_limit_witness :
    (((ScrollbackIndex.new 5000).append "a\n".data).search "a".data true false 1
        (fun _ => false) (fun _ _ => [])).length ≤ 1 :=
  c8_search_limit_amended (((ScrollbackIndex.new 5000).append "a\n".data))
    "a".data true false 1 (fun _ => false) (fun _ _ => []) (by decide)

theorem search_foobar_eval (limit : Nat) (h2 : 2 ≤ limit) :
    ((ScrollbackIndex.new 5000).append "foo bar\nBAR foo\n".data).search
      "bar".data false false limit (fun _ => false) (fun _ _ => []) =
      [⟨0, 4, 7, "foo bar".data, "foo bar".data⟩,
       ⟨1, 0, 3, "BAR foo".data, "BAR foo".data⟩] := by
  have hidx : (ScrollbackIndex.new 5000).append "foo bar\nBAR foo\n".data =
      { lines := ["foo bar".data, "BAR foo".data], buf := [], maxLines := 5000 } := by
    unfold ScrollbackIndex.append
    rw [stripAnsi_no_esc "foo bar\nBAR foo\n".data (by decide)]
    rfl
  rw [hidx]
  have s1 : scanLine "bar".data "foo bar".data "foo bar".data 0 limit [] 0 =
      scanLine "bar".data "foo bar".data "foo bar".data 0 limit
        [⟨0, 4, 7, "foo bar".data, "foo bar".data⟩] 7 := by
    rw [scanLine_found "bar".data "foo bar".data "foo bar".data 0 limit [] 0 4
      (by decide) (by decide)]
    rw [if_neg (by
      simp only [List.nil_append, List.length_cons, List.length_nil]
      omega)]
    rfl
  have s2 : scanLine "bar".data "foo bar".data "foo bar".data 0 limit
      [⟨0, 4, 7, "foo bar".data, "foo bar".data⟩] 7 =
      ([⟨0, 4, 7, "foo bar".data, "foo bar".data⟩], false) :=
    scanLine_notfound "bar".data "foo bar".data "foo bar".data 0 limit
      [⟨0, 4, 7, "foo bar".data, "foo bar".data⟩] 7 (by decide) (by decide)
  show searchLines "bar".data false limit
      [(0, "foo bar".data), (1, "BAR foo".data)] [] = _
  rw [searchLines]
  show (match scanLine "bar".data "foo bar".data "foo bar".data 0 limit [] 0 with
      | (acc2, true) => acc2
      | (acc2, false) =>
          searchLines "bar".data false limit [(1, "BAR foo".data)] acc2) = _
  rw [s1, s2]
  show searchLines "bar".data false limit [(1, "BAR foo".data)]
      [⟨0, 4, 7, "foo bar".data, "foo bar".data⟩] = _
  rw [searchLines]
  show (match scanLine "bar".data "bar foo".data "BAR foo".data 1 limit
        [⟨0, 4, 7, "foo bar".data, "foo bar".data⟩] 0 with
      | (acc2, true) => acc2
      | (acc2, false) => searchLines "bar".data false limit [] acc2) = _
  rw [scanLine_found "bar".data "bar foo".data "BAR foo".data 1 limit
    [⟨0, 4, 7, "foo bar".data, "foo bar".data⟩] 0 0 (by decide) (by decide)]
  rcases Nat.eq_or_lt_of_le h2 with h2e | h3
  · subst h2e
    rw [if_pos (by decide)]
    rfl
  · rw [if_neg (by
      simp only [List.length_append, List.length_cons, List.length_nil]
      omega)]
    rw [scanLine_notfound]
    · rfl
    · decide
    · decide

/-- C5 (counterexample): the actual case-insensitive plain search for "bar"
    over the lines "foo bar" and "BAR foo" at limit 2 places the first
    match at offsets 4..7 of the first line, not at the claimed 3..6
    ("bar" starts after the three letters of "foo" and a space). -/
theorem c5_search_offsets_counterexample :
    ((ScrollbackIndex.new 5000).append "foo bar\nBAR foo\n".data).search
      "bar".data false false 2 (fun _ => false) (fun _ _ => []) =
      [⟨0, 4, 7, "foo bar".data, "foo bar".data⟩,
       ⟨1, 0, 3, "BAR foo".data, "BAR foo".data⟩] ∧
    ([(⟨0, 4, 7, "foo bar".data, "foo bar".data⟩ : ScrollMatch),
      ⟨1, 0, 3, "BAR foo".data, "BAR foo".data⟩] : List ScrollMatch) ≠
      [⟨0, 3, 6, "foo bar".data, "foo bar".data⟩,
       ⟨1, 0, 3, "BAR foo".data, "BAR foo".data⟩] :=
  ⟨search_foobar_eval 2 (by decide), by decide⟩

/-- C5 (amended): with the stored scrollback lines "foo bar" and "BAR foo",
    a case-insensitive non-regex search for "bar" with a limit of at least 2
    returns exactly two matches, one per line in line order, whose start/end
    offsets are 4..7 in the first line and 0..3 in the second line, each
    carrying the owning line's index and full text. -/
theorem c5_search_offsets_amended (limit : Nat) (h2 : 2 ≤ limit) :
    ((ScrollbackIndex.new 5000).append "foo bar\nBAR foo\n".data).search
      "bar".data false false limit (fun _ => false) (fun _ _ => []) =
      [⟨0, 4, 7, "foo bar".data, "foo bar".data⟩,
       ⟨1, 0, 3, "BAR foo".data, "BAR foo".data⟩] :=
  search_foobar_eval limit h2

/-- Witness for the amended C5 at limit 2. -/
theorem c5_search_offsets_witness :
    ((ScrollbackIndex.new 5000).append "foo bar\nBAR foo\n".data).search
      "bar".data false false 2 (fun _ => false) (fun _ _ => []) =
      [⟨0, 4, 7, "foo bar".data, "foo bar".data⟩,
       ⟨1, 0, 3, "BAR foo".data, "BAR foo".data⟩] :=
  c5_search_offsets_amended 2 (by decide)

/-! ## `terminal.rs`: `Terminal` and `execute_command` -/

/-- `TerminalSize` (`terminal.rs`; both fields are `u16`). -/
structure TerminalSize where
  rows : Nat
  cols : Nat
  deriving DecidableEq, Repr

structure Terminal where
  id : String
  grid : TerminalGrid
  parser : AnsiParser
  size : TerminalSize
  deriving Repr

/-- `Terminal::new`. -/
def Terminal.new (id : String) (size : TerminalSize) : Terminal :=
  { id := id, grid := TerminalGrid.new size.cols size.rows,
    parser := AnsiParser.new, size := size }

/-- Checked `i16` negation (`-(n as i16)` panics in a debug build exactly
    when the operand is `i16::MIN`). -/
def i16neg (v : Int) : Option Int :=
  if v = -32768 then none else some (-v)

/-- `Terminal::execute_command`.  Commands whose arm in the source is a
    no-op (a `TODO` body or the catch-all `_` arm) leave the terminal
    unchanged; grid arithmetic that would panic in a debug build yields
    `none`. -/
def Terminal.executeCommand (t : Terminal) : AnsiCommand → Option Terminal
  | .printText text =>
    (applyGridOps t.grid
        (text.map (fun ch => GridOp.writeChar ch t.parser.currentAttributes))).map
      (fun g2 => { t with grid := g2 })
  | .cursorUp n =>
    match i16neg (i16ofBits (u16cast n)) with
    | some d => (t.grid.moveCursorRelative d 0).map (fun g2 => { t with grid := g2 })
    | none => none
  | .cursorDown n =>
    (t.grid.moveCursorRelative (i16ofBits (u16cast n)) 0).map
      (fun g2 => { t with grid := g2 })
  | .cursorLeft n =>
    match i16neg (i16ofBits (u16cast n)) with
    | some d => (t.grid.moveCursorRelative 0 d).map (fun g2 => { t with grid := g2 })
    | none => none
  | .cursorRight n =>
    (t.grid.moveCursorRelative 0 (i16ofBits (u16cast n))).map
      (fun g2 => { t with grid := g2 })
  | .cursorPosition row col =>
    (t.grid.moveCursor (row - 1) (col - 1)).map (fun g2 => { t with grid := g2 })
  | .cursorHome =>
    (t.grid.moveCursor 0 0).map (fun g2 => { t with grid := g2 })
  | .clearScreen => some { t with grid := t.grid.clearScreen }
  | .clearLine => some { t with grid := t.grid.clearLine }
  | .clearToEndOfLine => some { t with grid := t.grid.clearLine }
  | .clearToBeginningOfLine => some { t with grid := t.grid.clearLine }
  | .scrollUp n => some { t with grid := t.grid.scrollUp n }
  | .setGraphicsMode params =>
    some { t with parser := t.parser.applyGraphicsMode params }
  | _ => some t

def Terminal.executeCommands (t : Terminal) : List AnsiCommand → Option Terminal
  | [] => some t
  | cmd :: rest =>
    match t.executeCommand cmd with
    | some t2 => t2.executeCommands rest
    | none => none

/-- `Terminal::process_output`: run the parser (updating its state), then
    execute every decoded command. -/
def Terminal.processOutput (t : Terminal) (data : Str) : Option Terminal :=
  Terminal.executeCommands { t with parser := (t.parser.parse data).1 }
    (t.parser.parse data).2

theorem flushBuffer_currentAttributes (st : AnsiParser) :
    (flushBuffer st).1.currentAttributes = st.currentAttributes := by
  unfold flushBuffer
  split <;> rfl

theorem resetEscapeState_currentAttributes (st : AnsiParser) :
    (resetEscapeState st).currentAttributes = st.currentAttributes := rfl

theorem processChar_currentAttributes (st : AnsiParser) (c : Char) :
    (processChar st c).1.currentAttributes = st.currentAttributes := by
  unfold processChar
  dsimp only
  simp only [apply_ite (fun p : AnsiParser × List AnsiCommand => p.1.currentAttributes),
    flushBuffer_currentAttributes, resetEscapeState_currentAttributes]
  simp only [ite_self]

theorem runParser_currentAttributes (input : Str) : ∀ st : AnsiParser,
    (runParser st input).1.currentAttributes = st.currentAttributes := by
  induction input with
  | nil => intro st; rfl
  | cons c rest ih =>
    intro st
    show (runParser (processChar st c).1 rest).1.currentAttributes = _
    rw [ih (processChar st c).1, processChar_currentAttributes]

theorem parse_currentAttributes (st : AnsiParser) (input : Str) :
    ((st.parse input).1).currentAttributes = st.currentAttributes := by
  unfold AnsiParser.parse
  dsimp only
  split
  · exact runParser_currentAttributes input st
  · exact runParser_currentAttributes input st

/-- C6: graphics-mode parameters update the decoder's attribute state (0
    resets everything; 1/3/4/7/9 set bold/italic/underline/reverse/
    strikethrough; 22/23/24/27/29 clear them; 30-37 and 40-47 set the eight
    standard foreground/background colors; 39/49 clear foreground/background
    to none); the attribute state is never touched by `parse` itself, so it
    persists across parse calls, and `execute_command` attaches it to every
    printed character until it is changed.  Decoding "ESC [31m Hello ESC [0m"
    yields exactly the three claimed operations, and running them through a
    terminal leaves the five printed cells carrying the red foreground while
    the final attribute state has its foreground cleared. -/
theorem c6_graphics_attribute_semantics :
    (∀ a, applyGraphicsModeAttrs a [0] = CharAttributes.default) ∧
    (∀ a, applyGraphicsModeAttrs a [1] = { a with bold := true }) ∧
    (∀ a, applyGraphicsModeAttrs a [3] = { a with italic := true }) ∧
    (∀ a, applyGraphicsModeAttrs a [4] = { a with underline := true }) ∧
    (∀ a, applyGraphicsModeAttrs a [7] = { a with reverse := true }) ∧
    (∀ a, applyGraphicsModeAttrs a [9] = { a with strikethrough := true }) ∧
    (∀ a, applyGraphicsModeAttrs a [22] = { a with bold := false }) ∧
    (∀ a, applyGraphicsModeAttrs a [23] = { a with italic := false }) ∧
    (∀ a, applyGraphicsModeAttrs a [24] = { a with underline := false }) ∧
    (∀ a, applyGraphicsModeAttrs a [27] = { a with reverse := false }) ∧
    (∀ a, applyGraphicsModeAttrs a [29] = { a with strikethrough := false }) ∧
    (∀ a, applyGraphicsModeAttrs a [30] = { a with fgColor := some Color.black }) ∧
    (∀ a, applyGraphicsModeAttrs a [31] = { a with fgColor := some Color.red }) ∧
    (∀ a, applyGraphicsModeAttrs a [32] = { a with fgColor := some Color.green }) ∧
    (∀ a, applyGraphicsModeAttrs a [33] = { a with fgColor := some Color.yellow }) ∧
    (∀ a, applyGraphicsModeAttrs a [34] = { a with fgColor := some Color.blue }) ∧
    (∀ a, applyGraphicsModeAttrs a [35] = { a with fgColor := some Color.magenta }) ∧
    (∀ a, applyGraphicsModeAttrs a [36] = { a with fgColor := some Color.cyan }) ∧
    (∀ a, applyGraphicsModeAttrs a [37] = { a with fgColor := some Color.white }) ∧
    (∀ a, applyGraphicsModeAttrs a [39] = { a with fgColor := none }) ∧
    (∀ a, applyGraphicsModeAttrs a [40] = { a with bgColor := some Color.black }) ∧
    (∀ a, applyGraphicsModeAttrs a [41] = { a with bgColor := some Color.red }) ∧
    (∀ a, applyGraphicsModeAttrs a [42] = { a with bgColor := some Color.green }) ∧
    (∀ a, applyGraphicsModeAttrs a [43] = { a with bgColor := some Color.yellow }) ∧
    (∀ a, applyGraphicsModeAttrs a [44] = { a with bgColor := some Color.blue }) ∧
    (∀ a, applyGraphicsModeAttrs a [45] = { a with bgColor := some Color.magenta }) ∧
    (∀ a, applyGraphicsModeAttrs a [46] = { a with bgColor := some Color.cyan }) ∧
    (∀ a, applyGraphicsModeAttrs a [47] = { a with bgColor := some Color.white }) ∧
    (∀ a, applyGraphicsModeAttrs a [49] = { a with bgColor := none }) ∧
    (∀ (st : AnsiParser) (input : Str),
      ((st.parse input).1).currentAttributes = st.currentAttributes) ∧
    ((AnsiParser.new.parse "\x1b[31mHello\x1b[0m".data).2 =
      [.setGraphicsMode [31], .printText "Hello".data, .setGraphicsMode [0]]) ∧
    (((Terminal.new "t" ⟨3, 10⟩).processOutput "\x1b[31mHello\x1b[0m".data).map
        (fun t2 => (t2.parser.currentAttributes.fgColor,
          (t2.grid.rows.getD 0 []).take 5)) =
      some (none, "Hello".data.map
        (fun c => (⟨c, { CharAttributes.default with fgColor := some Color.red }⟩ :
          TerminalChar)))) :=
  ⟨fun _ => rfl, fun _ => rfl, fun _ => rfl, fun _ => rfl, fun _ => rfl,
   fun _ => rfl, fun _ => rfl, fun _ => rfl, fun _ => rfl, fun _ => rfl,
   fun _ => rfl, fun _ => rfl, fun _ => rfl, fun _ => rfl, fun _ => rfl,
   fun _ => rfl, fun _ => rfl, fun _ => rfl, fun _ => rfl, fun _ => rfl,
   fun _ => rfl, fun _ => rfl, fun _ => rfl, fun _ => rfl, fun _ => rfl,
   fun _ => rfl, fun _ => rfl, fun _ => rfl, fun _ => rfl,
   fun st input => parse_currentAttributes st input,
   rfl, by decide⟩

/-! ## `shell_hooks.rs`: the Shell Hook Tracker

The prompt regexes are embedded as character-level scanners.  Each regex
used by the source has the property that every quantified class excludes
the character that must follow it, so backtracking never changes the
outcome and maximal munch is an equivalent deterministic reading.  The
system clock and UUID generation enter as explicit `now`/`fresh`
parameters of `process_output`. -/

/-- Whitespace as matched by the regex class used in the prompt patterns
    (the ASCII fragment; the inputs of interest contain only spaces). -/
def isWs (c : Char) : Bool :=
  c = ' ' || c = '\t' || c = '\n' || c = '\r' || c = '\x0b' || c = '\x0c'

def isWordChar (c : Char) : Bool := c.isAlphanum || c = '_'

/-- `str::trim`. -/
def trimStr (s : Str) : Str :=
  ((s.dropWhile isWs).reverse.dropWhile isWs).reverse

/-- `str::trim_end_matches('\r')`. -/
def dropTrailingCr (s : Str) : Str :=
  (s.reverse.dropWhile (fun c => c = '\r')).reverse

/-- Split at the first `'>'`: the part before it and the part after it. -/
def gtSplit (s : Str) : Option (Str × Str) :=
  match s.span (fun c => c ≠ '>') with
  | (pre, '>' :: post) => some (pre, post)
  | _ => none

inductive ShellType where
  | powershell | bash | zsh | fish | cmd | unknown
  deriving DecidableEq, Repr

structure Command where
  id : String
  text : Str
  timestamp : Nat
  workingDir : Str
  exitCode : Option Int
  durationMs : Option Nat
  shellType : ShellType
  deriving DecidableEq, Repr

structure PromptInfo where
  shellType : ShellType
  workingDir : Str
  user : String
  hostname : String
  promptText : Str
  deriving DecidableEq, Repr

/-- Capture of `^PS\s+([A-Za-z]:[\\\/][^>]*|[~\/][^>]*)>\s*$` (group 1).
    The two alternatives are distinguished by their first character, and
    `[^>]*` runs to the first `'>'`. -/
def captPSAlt (r2 : Str) : Option Str :=
  match r2 with
  | a :: r3 =>
    if a = '~' || a = '/' then
      match gtSplit r3 with
      | some (pre, post) => if post.all isWs then some (a :: pre) else none
      | none => none
    else none
  | [] => none

def captPS (s : Str) : Option Str :=
  match s with
  | 'P' :: 'S' :: r1 =>
    let w := r1.takeWhile isWs
    let r2 := r1.drop w.length
    if w = [] then none
    else
      match r2 with
      | a :: ':' :: sl :: r3 =>
        if a.isAlpha && (sl = '\\' || sl = '/') then
          match gtSplit r3 with
          | some (pre, post) =>
            if post.all isWs then some (a :: ':' :: sl :: pre) else none
          | none => none
        else captPSAlt r2
      | _ => captPSAlt r2
  | _ => none

def matchPS1 (s : Str) : Bool := (captPS s).isSome

/-- Matcher of `^PowerShell\s+.*>\s*$` (`.` does not match a newline; the
    match succeeds exactly when some `'>'` is followed by whitespace only,
    i.e. the last `'>'` is). -/
def matchPS2 (s : Str) : Bool :=
  if "PowerShell".data.isPrefixOf s then
    let r1 := s.drop 10
    let w := r1.takeWhile isWs
    let r2 := r1.drop w.length
    if w = [] then false
    else
      match r2.reverse.span (fun c => c ≠ '>') with
      | (tl, '>' :: pre) => tl.all isWs && pre.all (fun c => c ≠ '\n')
      | _ => false
  else false

/-- Matcher of `^Azure:\w+@Azure:~\$\s*$`. -/
def matchPS3 (s : Str) : Bool :=
  if "Azure:".data.isPrefixOf s then
    let r1 := s.drop 6
    let w := r1.takeWhile isWordChar
    let r2 := r1.drop w.length
    w ≠ [] && "@Azure:~$".data.isPrefixOf r2 && (r2.drop 9).all isWs
  else false

/-- Matcher of the standard bash prompt `^[^@\s]+@[^:\s]+:[^$]*\$\s*$`. -/
def matchBashStd (s : Str) : Bool :=
  match s.span (fun c => ¬ (c = '@' || isWs c)) with
  | (user, '@' :: r2) =>
    user ≠ [] &&
      (match r2.span (fun c => ¬ (c = ':' || isWs c)) with
       | (host, ':' :: r4) =>
         host ≠ [] &&
           (match r4.span (fun c => c ≠ '$') with
            | (_, '$' :: r6) => r6.all isWs
            | _ => false)
       | _ => false)
  | _ => false

/-- Matcher of `^\$\s*$`. -/
def matchDollar (s : Str) : Bool :=
  match s with
  | '$' :: r => r.all isWs
  | _ => false

/-- Matcher of `^#\s*$`. -/
def matchHash (s : Str) : Bool :=
  match s with
  | '#' :: r => r.all isWs
  | _ => false

/-- Matcher of the oh-my-zsh prompt `^[^@\s]+@[^:\s]+:[^%]*%\s*$`. -/
def matchZshStd (s : Str) : Bool :=
  match s.span (fun c => ¬ (c = '@' || isWs c)) with
  | (user, '@' :: r2) =>
    user ≠ [] &&
      (match r2.span (fun c => ¬ (c = ':' || isWs c)) with
       | (host, ':' :: r4) =>
         host ≠ [] &&
           (match r4.span (fun c => c ≠ '%') with
            | (_, '%' :: r6) => r6.all isWs
            | _ => false)
       | _ => false)
  | _ => false

/-- Matcher of `^%\s*$`. -/
def matchPercent (s : Str) : Bool :=
  match s with
  | '%' :: r => r.all isWs
  | _ => false

/-- Matcher of the fish prompt `^[^@\s]+@[^:\s]+\s+[^>]*>\s*$`. -/
def matchFish (s : Str) : Bool :=
  match s.span (fun c => ¬ (c = '@' || isWs c)) with
  | (user, '@' :: r2) =>
    user ≠ [] &&
      (match r2.span (fun c => ¬ (c = ':' || isWs c)) with
       | (host, r3) =>
         host ≠ [] &&
           (let w := r3.takeWhile isWs
            w ≠ [] &&
              (match gtSplit (r3.drop w.length) with
               | some (_, post) => post.all isWs
               | none => false)))
  | _ => false

/-- Matcher of the CMD prompt `^[A-Za-z]:[\\\/][^>]*>\s*$`. -/
def matchCmd (s : Str) : Bool :=
  match s with
  | a :: ':' :: sl :: r3 =>
    a.isAlpha && (sl = '\\' || sl = '/') &&
      (match gtSplit r3 with
       | some (_, post) => post.all isWs
       | none => false)
  | _ => false

/-- The prompt pattern table built by `init_prompt_patterns`. -/
def promptPatterns : ShellType → List (Str → Bool)
  | .powershell => [matchPS1, matchPS2, matchPS3]
  | .bash => [matchBashStd, matchDollar, matchHash]
  | .zsh => [matchZshStd, matchPercent]
  | .fish => [matchFish]
  | .cmd => [matchCmd]
  | .unknown => []

/-- Capture of `^([^@\s]+)@([^:\s]+):([^$%]*)([$%])\s*$` used by
    `parse_prompt_info` for bash/zsh: user, hostname, working dir. -/
def captBashZsh (s : Str) : Option (Str × Str × Str) :=
  match s.span (fun c => ¬ (c = '@' || isWs c)) with
  | (user, '@' :: r2) =>
    if user = [] then none
    else
      match r2.span (fun c => ¬ (c = ':' || isWs c)) with
      | (host, ':' :: r4) =>
        if host = [] then none
        else
          match r4.span (fun c => ¬ (c = '$' || c = '%')) with
          | (wd, d :: r6) =>
            if (d = '$' || d = '%') && r6.all isWs then some (user, host, wd)
            else none
          | _ => none
      | _ => none
  | _ => none

def isHookParamChar (c : Char) : Bool := c.isDigit || c = ';'

/-- Fuel-indexed scanner for `replace_all` of `\x1b\[[0-9;]*[a-zA-Z]` with
    the empty string; the fuel (initially the string length) only makes the
    recursion structural and is never exhausted. -/
def stripAnsiCodesFuel : Nat → Str → Str
  | _, [] => []
  | 0, s => s
  | fuel + 1, '\x1b' :: '[' :: r2 =>
    (match r2.dropWhile isHookParamChar with
     | f :: r5 =>
       if f.isAlpha then stripAnsiCodesFuel fuel r5
       else '\x1b' :: stripAnsiCodesFuel fuel ('[' :: r2)
     | [] => '\x1b' :: stripAnsiCodesFuel fuel ('[' :: r2))
  | fuel + 1, c :: rest => c :: stripAnsiCodesFuel fuel rest

/-- `ShellHooks::strip_ansi_codes`. -/
def stripAnsiCodes (s : Str) : Str := stripAnsiCodesFuel s.length s

structure ShellHooks where
  sessionId : String
  commandHistory : List Command
  currentCommand : Option Command
  shellType : ShellType
  currentPrompt : Option PromptInfo
  workingDir : Str
  maxHistorySize : Nat
  outputBuffer : Str
  deriving DecidableEq, Repr

/-- `ShellHooks::new` (the prompt-pattern table is a constant and is not
    part of the state). -/
def ShellHooks.new (sessionId : String) (shellType : ShellType)
    (workingDir : Str) : ShellHooks :=
  { sessionId := sessionId, commandHistory := [], currentCommand := none,
    shellType := shellType, currentPrompt := none, workingDir := workingDir,
    maxHistorySize := 1000, outputBuffer := [] }

/-- `ShellHooks::detect_shell_type`, as a function of the lowercased file
    name of the shell path (the `Path::file_name` extraction is a library
    call). -/
def detectShellType (shellName : String) : ShellType :=
  if shellName = "powershell.exe" || shellName = "pwsh.exe" ||
      shellName = "powershell" || shellName = "pwsh" then .powershell
  else if shellName = "bash.exe" || shellName = "bash" then .bash
  else if shellName = "zsh.exe" || shellName = "zsh" then .zsh
  else if shellName = "fish.exe" || shellName = "fish" then .fish
  else if shellName = "cmd.exe" || shellName = "cmd" then .cmd
  else .unknown

/-- `ShellHooks::parse_prompt_info` (only the PowerShell and Bash/Zsh arms
    do anything; only the Bash/Zsh arm sets `current_prompt`). -/
def parsePromptInfo (h : ShellHooks) (line : Str) : ShellHooks :=
  match h.shellType with
  | .powershell =>
    match captPS line with
    | some path => { h with workingDir := path }
    | none => h
  | .bash | .zsh =>
    match captBashZsh line with
    | some (user, host, wd) =>
      { h with workingDir := wd,
               currentPrompt := some
                 ⟨h.shellType, wd, ⟨user⟩, ⟨host⟩, line⟩ }
    | none => h
  | _ => h

/-- `ShellHooks::check_for_prompt`: try the current shell type's patterns,
    then every other shell type's (the source iterates a `HashMap`, whose
    order is unspecified; a fixed order is used here — for the inputs in
    this development either the primary patterns match or none do, so the
    order never matters). -/
def checkForPrompt (h : ShellHooks) (line : Str) : ShellHooks × Bool :=
  let clean := stripAnsiCodes line
  if (promptPatterns h.shellType).any (fun m => m clean) then
    (parsePromptInfo h clean, true)
  else
    match ([ShellType.powershell, .bash, .zsh, .fish, .cmd].filter
        (fun st2 => st2 ≠ h.shellType)).find?
        (fun st2 => (promptPatterns st2).any (fun m => m clean)) with
    | some st2 => (parsePromptInfo { h with shellType := st2 } clean, true)
    | none => (h, false)

/-- `ShellHooks::looks_like_command`. -/
def looksLikeCommand (h : ShellHooks) (line : Str) : Bool :=
  let clean := trimStr line
  if clean = [] then false
  else if clean.take 1 = ['#'] then false
  else if clean.take 2 = ['/', '/'] then false
  else if clean.take 1 = ['>'] then false
  else
    match h.shellType with
    | .powershell =>
      let w := clean.takeWhile (fun c => ¬ isWs c)
      if w = [] then false
      else
        w.contains '-' ||
          (["cd", "ls", "dir", "pwd", "echo", "cat", "type", "mkdir",
            "rmdir", "del", "copy", "move"].map String.data).contains
            (toLowerStr w)
    | _ => true

/-- `ShellHooks::add_to_history`. -/
def addToHistory (hist : List Command) (maxSize : Nat) (cmd : Command) :
    List Command :=
  (if hist.length ≥ maxSize then hist.drop 1 else hist) ++ [cmd]

/-- `ShellHooks::process_line`.  `now` is the millisecond clock reading and
    `fresh` the generated UUID; the `u64` duration subtraction panics in a
    debug build when the clock moved backwards (`none`). -/
def processLine (now : Nat) (fresh : String) (h : ShellHooks) (line : Str) :
    Option ShellHooks :=
  if trimStr line = [] then some h
  else
    match checkForPrompt h line with
    | (h2, true) =>
      match h2.currentCommand with
      | some cmd =>
        if now < cmd.timestamp then none
        else some { h2 with
          currentCommand := none,
          commandHistory := addToHistory h2.commandHistory h2.maxHistorySize
            { cmd with durationMs := some (now - cmd.timestamp) } }
      | none => some h2
    | (h2, false) =>
      if h2.currentPrompt.isSome && ¬ line.take 1 = [' '] then
        if looksLikeCommand h2 line then
          some { h2 with
            currentCommand :=
              some ⟨fresh, line, now, h2.workingDir, none, none, h2.shellType⟩ }
        else some h2
      else some h2

/-- Complete lines (up to each `'\n'`) and the trailing remainder. -/
def splitNl : Str → List Str × Str
  | [] => ([], [])
  | '\n' :: rest =>
    let r := splitNl rest
    ([] :: r.1, r.2)
  | c :: rest =>
    let r := splitNl rest
    match r.1 with
    | [] => ([], c :: r.2)
    | l :: ls => ((c :: l) :: ls, r.2)

def processLines (now : Nat) (fresh : String) :
    ShellHooks → List Str → Option ShellHooks
  | h, [] => some h
  | h, l :: rest =>
    match processLine now fresh h (dropTrailingCr l) with
    | some h2 => processLines now fresh h2 rest
    | none => none

/-- `ShellHooks::process_output`: append the chunk to the buffer, process
    every complete line (draining it), then — if the remaining buffer is
    not blank — run the prompt check on it, discarding the returned flag
    and keeping the buffer. -/
def ShellHooks.processOutput (h : ShellHooks) (data : Str) (now : Nat)
    (fresh : String) : Option ShellHooks :=
  let (ls, rem) := splitNl (h.outputBuffer ++ data)
  match processLines now fresh { h with outputBuffer := rem } ls with
  | some h2 =>
    if trimStr h2.outputBuffer ≠ [] then some (checkForPrompt h2 h2.outputBuffer).1
    else some h2
  | none => none

/-- C4 (code bug): feeding "user@host:~$ " then "ls\n" then "user@host:~$ "
    to a freshly created Bash shell-hook tracker records NO completed
    history entry; instead the pending command's text is the whole line
    "user@host:~$ ls".  The first chunk's prompt (no trailing newline) is
    detected only by the buffer-tail check, whose return value is discarded
    and whose buffer is not drained, so the prompt text is still in the
    buffer when "ls\n" arrives and the completed line seen by
    `process_line` is "user@host:~$ ls"; that line no longer matches any
    prompt pattern, is taken for a command, and the final prompt chunk
    (again without newline) never reaches the completion path. -/
theorem c4_prompt_round_trip_code_bug :
    (((ShellHooks.new "s" ShellType.bash "~".data).processOutput
          "user@host:~$ ".data 100 "id1").bind (fun h1 =>
        (h1.processOutput "ls\n".data 200 "id2").bind (fun h2 =>
          h2.processOutput "user@host:~$ ".data 300 "id3"))).map
        (fun h => (h.commandHistory.length,
          h.currentCommand.map (fun c => c.text))) =
      some (0, some "user@host:~$ ls".data) ∧ (0 : Nat) ≠ 1 :=
  ⟨by decide, by decide⟩

/-! ## `pty.rs` / `terminal.rs`: the session stores -/

/-- `PtySession` (`pty.rs`). -/
structure PtySession where
  id : String
  size : TerminalSize
  shell : String
  workingDir : String
  deriving DecidableEq, Repr

/-- `TerminalManager` state: the four per-session stores (`terminals`,
    `pty_manager.processes`, `shell_hooks.hooks`, `search_index.sessions`). -/
structure TerminalManager where
  terminals : List (String × Terminal)
  ptyProcesses : List (String × PtySession)
  shellHooks : List (String × ShellHooks)
  searchIndex : SearchIndexManager

/-- `TerminalManager::new` (fresh stores; `SearchIndexManager::new` has
    `max_lines = 5000`). -/
def TerminalManager.new : TerminalManager :=
  { terminals := [], ptyProcesses := [], shellHooks := [],
    searchIndex := SearchIndexManager.new }

/-- `TerminalManager::create_terminal`.  `sid` is the UUID generated by
    `PtyManager::create_session`, `shellName` the lowercased file name of
    the resolved shell path, and `spawnOk` whether the shell process
    spawned (`start_shell_process` failing makes `create_session` return
    `Err` before anything is registered, and the `?` in `create_terminal`
    then returns early, so no store is touched). -/
def TerminalManager.createTerminal (m : TerminalManager) (sid : String)
    (size : TerminalSize) (shellName shellPath workDir : String)
    (spawnOk : Bool) : Option (TerminalManager × String) :=
  if spawnOk then
    some
      ({ terminals := alInsert sid (Terminal.new sid size) m.terminals,
         ptyProcesses := alInsert sid ⟨sid, size, shellPath, workDir⟩
           m.ptyProcesses,
         shellHooks := alInsert sid
           (ShellHooks.new sid (detectShellType shellName) workDir.data)
           m.shellHooks,
         searchIndex := m.searchIndex.createSession sid }, sid)
  else none

/-- `TerminalManager::close_terminal`: remove the session from all four
    stores (`PtyManager::close_session` never fails). -/
def TerminalManager.closeTerminal (m : TerminalManager) (sid : String) :
    TerminalManager :=
  { terminals := alErase sid m.terminals,
    shellHooks := alErase sid m.shellHooks,
    searchIndex := m.searchIndex.removeSession sid,
    ptyProcesses := alErase sid m.ptyProcesses }

/-- C9: opening a session registers an entry under the same session id in
    all four per-session stores (terminal grid/parser, PTY process,
    shell-hook tracker, search index) — and when the shell fails to spawn,
    in none of them; closing a session removes the entry from all four, so
    no store retains a dangling entry for that id afterwards. -/
theorem c9_session_lifecycle :
    (∀ (m : TerminalManager) (sid : String) (size : TerminalSize)
       (shellName shellPath workDir : String),
      ∃ m2, m.createTerminal sid size shellName shellPath workDir true =
          some (m2, sid) ∧
        (alLookup sid m2.terminals).isSome ∧
        (alLookup sid m2.ptyProcesses).isSome ∧
        (alLookup sid m2.shellHooks).isSome ∧
        (alLookup sid m2.searchIndex.sessions).isSome) ∧
    (∀ (m : TerminalManager) (sid : String) (size : TerminalSize)
       (shellName shellPath workDir : String),
      m.createTerminal sid size shellName shellPath workDir false = none) ∧
    (∀ (m : TerminalManager) (sid : String),
      alLookup sid (m.closeTerminal sid).terminals = none ∧
      alLookup sid (m.closeTerminal sid).ptyProcesses = none ∧
      alLookup sid (m.closeTerminal sid).shellHooks = none ∧
      alLookup sid (m.closeTerminal sid).searchIndex.sessions = none) := by
  refine ⟨?_, ?_, ?_⟩
  · intro m sid size shellName shellPath workDir
    refine ⟨_, rfl, ?_, ?_, ?_, ?_⟩
    · rw [alLookup_insert]; rfl
    · rw [alLookup_insert]; rfl
    · rw [alLookup_insert]; rfl
    · show (alLookup sid (alInsert sid _ m.searchIndex.sessions)).isSome = true
      rw [alLookup_insert]; rfl
  · intro m sid size shellName shellPath workDir
    rfl
  · intro m sid
    exact ⟨alLookup_erase sid m.terminals, alLookup_erase sid m.ptyProcesses,
      alLookup_erase sid m.shellHooks, alLookup_erase sid m.searchIndex.sessions⟩
